import Mathlib

/-! goqemu: a shallow embedding of the VM lifecycle code.

The Go package drives an external hypervisor binary.  Everything the code asks
of the operating system (search path lookups, command output, file status,
sockets, the clock) is an explicit oracle of a host record (`QemuHost`, `Host`,
`RunHost`, `SnapHost`, `StoreHost`, `NetHost`), the files of the snapshot store
are an explicit `Disk`, and every externally visible action the code takes is
recorded, in program order, in a list of `Event`s.  Go strings are Lean
`String`s, Go `int` is `Int` with 64-bit wrap-around where arithmetic is
performed, `error` results are `Except String`.
-/

namespace GoQemu

/-! ## Part 1: definitions -/

/-! ### Strings and integers -/

/-- Go `int` / `int64` arithmetic result, wrapped to the signed 64-bit range. -/
def wrapInt64 (x : Int) : Int :=
  (x + 9223372036854775808) % 18446744073709551616 - 9223372036854775808

/-- Text that `fmt.Sprintf("%d", n)` produces. -/
def sprintD : Int → String
  | Int.ofNat n => Nat.repr n
  | Int.negSucc n => "-" ++ Nat.repr (n + 1)

/-- Worker of `stringsSplit`: `cur` holds the current piece, reversed. -/
def splitAux (sep : Char) : List Char → List Char → List (List Char)
  | [], cur => [cur.reverse]
  | c :: cs, cur =>
    if c = sep then cur.reverse :: splitAux sep cs [] else splitAux sep cs (c :: cur)

/-- Go `strings.Split(s, sep)` for a one-character separator. -/
def stringsSplit (s : String) (sep : Char) : List String :=
  (splitAux sep s.data []).map String.mk

/-! ### qemu.go -/

/-- Name of the hypervisor binary. -/
def qemuBin : String := "qemu-system-x86_64"

/-- Constant `minQemuVersion` of qemu.go. -/
def minQemuVersion : String := "8.1.0"

/-- Go `<` on strings, on the character lists: bytewise lexical order, which on
UTF-8 text is the lexical order of the code points. -/
def lexLess : List Char → List Char → Bool
  | [], [] => false
  | [], _ :: _ => true
  | _ :: _, [] => false
  | a :: as, b :: bs =>
    if a.toNat < b.toNat then true else if b.toNat < a.toNat then false else lexLess as bs

/-- Go `s < t` on strings. -/
def stringLess (s t : String) : Bool := lexLess s.data t.data

/-- Loop of `compareVersions` over the two part lists: it runs while both
lists have a part at the index, and compares the parts with the string
operators `<` and `>`. -/
def compareParts : List String → List String → Int
  | a :: as, b :: bs =>
    if stringLess a b then -1 else if stringLess b a then 1 else compareParts as bs
  | _, _ => 0

/-- Function `compareVersions` of qemu.go. -/
def compareVersions (v1 v2 : String) : Int :=
  compareParts (stringsSplit v1 '.') (stringsSplit v2 '.')

/-- Decimal digit, the class `\d` of the version pattern. -/
def isDigit (c : Char) : Bool := decide ('0' ≤ c) && decide (c ≤ '9')

/-- Longest run of digits at the head of the input, and the rest. -/
def spanDigits : List Char → List Char × List Char
  | [] => ([], [])
  | c :: cs =>
    if isDigit c then ((spanDigits cs).1.cons c, (spanDigits cs).2) else ([], c :: cs)

/-- Match of `\d+\.\d+\.\d+` anchored at the head of the input. -/
def matchTriple (cs : List Char) : Option (List Char) :=
  match spanDigits cs with
  | ([], _) => none
  | (a, '.' :: r1) =>
    match spanDigits r1 with
    | ([], _) => none
    | (b, '.' :: r2) =>
      match spanDigits r2 with
      | ([], _) => none
      | (c, _) => some (a ++ '.' :: b ++ '.' :: c)
    | _ => none
  | _ => none

/-- Removes `pre` from the head of the input when it is there. -/
def dropLiteral : List Char → List Char → Option (List Char)
  | [], cs => some cs
  | _ :: _, [] => none
  | p :: ps, c :: cs => if p = c then dropLiteral ps cs else none

/-- Leftmost match of the pattern `QEMU emulator version (\d+\.\d+\.\d+)`;
the result is the capture group. -/
def findVersion : List Char → Option (List Char)
  | [] => none
  | c :: cs =>
    match (dropLiteral "QEMU emulator version ".data (c :: cs)).bind matchTriple with
    | some v => some v
    | none => findVersion cs

/-- What the host answers to the hypervisor-related queries of qemu.go. -/
structure QemuHost where
  /-- Whether `exec.LookPath` finds the binary. -/
  lookPathOk : Bool
  /-- Standard output of the binary run with `--version`, or the run's error. -/
  versionOutput : Except String String

/-- Externally visible actions, in the order the code performs them. -/
inductive Event where
  /-- Call `exec.LookPath(bin)`. -/
  | lookPath (bin : String)
  /-- A command run to completion (`Output`, `Run`). -/
  | run (bin : String) (args : List String)
  /-- Call `os.Stat(path)`. -/
  | stat (path : String)
  /-- Call `downloadImage(url, dest)`: creates the directory and the file, fetches the URL. -/
  | downloadImage (url dest : String)
  /-- Call `assignVMIP()`: inspects the host network interfaces. -/
  | assignVMIP
  /-- Call `createQemuDirs()`. -/
  | createQemuDirs
  /-- Call `net.Listen("tcp", ":port")` followed by closing the listener. -/
  | listen (port : Int)
  /-- Call `cmd.Start()` of a command that is left running; `started` tells
  whether the process was created. -/
  | spawn (bin : String) (args : List String) (started : Bool)
  /-- Call `net.DialTimeout("tcp", addr, 1s)`. -/
  | dial (addr : String)
  /-- Call `time.Sleep(ns)`. -/
  | sleep (ns : Int)
  /-- Call `ssh.Dial("tcp", addr, config)`. -/
  | sshDial (addr : String)
  /-- Call `sshClient.Close()`. -/
  | sshClose
  /-- Statement `close(vm.commandChan)`. -/
  | closeChan
  /-- Call `vm.cancel()`. -/
  | cancel
  /-- Call `os.ReadDir(path)`. -/
  | readDir (path : String)
  /-- Call `os.ReadFile(path)`. -/
  | readFile (path : String)
  /-- Call `os.MkdirAll(path, 0755)`. -/
  | mkdirAll (path : String)
  /-- Call `os.Create(path)`. -/
  | create (path : String)
  /-- A write of text to the open file at `path` (`fmt.Fprintf`). -/
  | write (path : String)
  /-- Call `os.Remove(path)`. -/
  | remove (path : String)
  deriving DecidableEq, Repr

/-- Function `getQemuVersion` of qemu.go. -/
def getQemuVersion (h : QemuHost) : Except String String :=
  match h.versionOutput with
  | .error e => .error ("error obteniendo versión de QEMU: " ++ e)
  | .ok out =>
    match findVersion out.data with
    | none => .error "no se pudo determinar la versión de QEMU"
    | some v => .ok (String.mk v)

/-- Function `checkQemuVersion` of qemu.go. -/
def checkQemuVersion (h : QemuHost) : Except String Unit :=
  match getQemuVersion h with
  | .error e => .error e
  | .ok version =>
    if compareVersions version minQemuVersion < 0 then
      .error ("versión de QEMU (" ++ version ++ ") es menor que la requerida ("
        ++ minQemuVersion ++ ")")
    else .ok ()

/-- Function `checkQemuInstalled` of qemu.go, with the actions it performs. -/
def checkQemuInstalled (h : QemuHost) : Except String Unit × List Event :=
  if h.lookPathOk then
    (checkQemuVersion h, [.lookPath qemuBin, .run qemuBin ["--version"]])
  else
    (.error "QEMU no está instalado. Por favor instale QEMU antes de continuar",
      [.lookPath qemuBin])

/-! ### Paths (Go `path` and `path/filepath`, Unix separator) -/

/-- Drops the trailing slashes, on the reversed path. -/
def dropSlashes : List Char → List Char
  | [] => []
  | c :: cs => if c = '/' then dropSlashes cs else c :: cs

/-- Takes the characters up to the first slash, on the reversed path. -/
def untilSlash : List Char → List Char
  | [] => []
  | c :: cs => if c = '/' then [] else c :: untilSlash cs

/-- Go `path.Base`. -/
def pathBase (p : String) : String :=
  if p = "" then "."
  else
    let last := (untilSlash (dropSlashes p.data.reverse)).reverse
    if last = [] then "/" else String.mk last

/-- Element stack of `filepath.Clean`: `.` and empty elements vanish, `..`
removes the element before it, is dropped at the root and kept otherwise. -/
def cleanElems (rooted : Bool) : List String → List String → List String
  | [], stack => stack.reverse
  | e :: es, stack =>
    if e = "" ∨ e = "." then cleanElems rooted es stack
    else if e = ".." then
      match stack with
      | [] => if rooted then cleanElems rooted es [] else cleanElems rooted es [".."]
      | top :: rest =>
        if top = ".." then cleanElems rooted es (".." :: top :: rest)
        else cleanElems rooted es rest
    else cleanElems rooted es (e :: stack)

/-- Go `filepath.Clean`. -/
def filepathClean (p : String) : String :=
  let rooted := p.data.head? = some '/'
  let body := String.intercalate "/" (cleanElems rooted (stringsSplit p '/') [])
  if rooted then "/" ++ body else if body = "" then "." else body

/-- Go `filepath.Join`: the elements from the first non-empty one on, joined and cleaned. -/
def filepathJoin : List String → String
  | [] => ""
  | e :: es => if e = "" then filepathJoin es else filepathClean (String.intercalate "/" (e :: es))

/-- Scan of `filepath.Ext` from the end of the name, on the reversed name:
`acc` holds what was passed so far. -/
def extAux : List Char → List Char → List Char
  | [], _ => []
  | c :: cs, acc => if c = '/' then [] else if c = '.' then '.' :: acc else extAux cs (c :: acc)

/-- Go `filepath.Ext`. -/
def filepathExt (name : String) : String := String.mk (extAux name.data.reverse [])

/-! ### model.go: configuration and instance -/

/-- Constants `DisplayNone`, `DisplayGTK`, `DisplaySDL`, `DisplayVNC`. -/
def DisplayNone : String := "none"

/-- Constant `DisplayGTK`. -/
def DisplayGTK : String := "gtk"

/-- Constant `DisplaySDL`. -/
def DisplaySDL : String := "sdl"

/-- Constant `DisplayVNC`. -/
def DisplayVNC : String := "vnc"

/-- Struct `QemuConfig`; the defaults are the zero values of Go. -/
structure QemuConfig where
  /-- GB, default 4. -/
  RAM : Int := 0
  /-- Cores, default 2. -/
  CPU : Int := 0
  /-- GB, default 10. -/
  DiskSize : Int := 0
  /-- Optional, default debian 12. -/
  ImageURL : String := ""
  /-- Snapshot storage mode. -/
  SnapshotsInMemory : Bool := false
  /-- One of "none", "gtk", "sdl", "vnc" (type `vmDisplay`, a string). -/
  Display : String := ""
  /-- VNC port when `Display = "vnc"`. -/
  VNCPort : Int := 0
  deriving DecidableEq, Repr

/-- State of a Go channel value. -/
inductive ChanState where
  | isNil
  | isOpen
  | isClosed
  deriving DecidableEq, Repr

/-- Struct `QemuVM`.  `sshClient` holds the address the client was dialled at,
`process` the process identifier, `cmd` the command line of `vm.cmd`; `ctx` is
`none` while `vm.ctx` and `vm.cancel` are unset, and otherwise tells whether
the context has been cancelled. -/
structure QemuVM where
  config : Option QemuConfig
  ip : String
  sshClient : Option String
  commandChan : ChanState
  process : Option Nat
  defaultArgs : List String
  cmd : Option (String × List String)
  ctx : Option Bool
  deriving DecidableEq, Repr

/-- What the host answers while an instance is constructed. -/
structure Host where
  /-- Answers to the hypervisor queries. -/
  qemu : QemuHost
  /-- Value of `os.Getenv("HOME")`. -/
  home : String
  /-- Whether `os.Stat(path)` fails with a does-not-exist error. -/
  statNotExist : String → Bool
  /-- Error of `downloadImage(url, dest)`, `none` for nil. -/
  downloadErr : String → String → Option String
  /-- Result of `assignVMIP()`: the lease `(ip, mask)` or its error. -/
  lease : Except String (String × String)
  /-- Error of `createQemuDirs()`, `none` for nil. -/
  createDirsErr : Option String

/-- Function `getImagePath` of image.go. -/
def getImagePath (home url : String) : String :=
  filepathJoin [home, "qemu", "img", pathBase url]

/-- Default image URL of `NewQemuVM`. -/
def defaultImageURL : String :=
  "https://cloud.debian.org/images/cloud/bookworm/daily/latest/debian-12-nocloud-amd64-daily.qcow2"

/-- Lines 58-83 of `NewQemuVM`: the default configuration when none is given
or the first one is nil, otherwise the given one after the minimum checks and
the display fill-in. -/
def selectConfig : List (Option QemuConfig) → Except String QemuConfig
  | [] | none :: _ =>
    .ok { RAM := 4, CPU := 2, DiskSize := 10, Display := DisplayGTK }
  | some config :: _ =>
    if config.RAM < 1 then .error "RAM debe ser al menos 1GB"
    else if config.CPU < 1 then .error "CPU debe ser al menos 1 core"
    else if config.DiskSize < 1 then .error "tamaño de disco debe ser al menos 1GB"
    else if config.Display = "" then .ok { config with Display := DisplaySDL }
    else .ok config

/-- Lines 86-88 of `NewQemuVM`. -/
def fillImageURL (config : QemuConfig) : QemuConfig :=
  if config.ImageURL = "" then { config with ImageURL := defaultImageURL } else config

/-- Lines 107-115 of `NewQemuVM`: the arguments before the display directive. -/
def baseArgs (config : QemuConfig) (imgPath ip mask : String) : List String :=
  ["-m", sprintD config.RAM ++ "G",
   "-smp", sprintD config.CPU,
   "-hda", imgPath,
   "-netdev", "user,id=net0,net=" ++ mask ++ ",dhcpstart=" ++ ip ++ ",hostfwd=tcp::2222-:22",
   "-device", "e1000,netdev=net0"]

/-- Lines 118-132 of `NewQemuVM`: the display directive, or the error of the
`vnc` case without a port. -/
def displayArgs (config : QemuConfig) : Except String (List String) :=
  if config.Display = "gtk" then .ok ["-display", "gtk"]
  else if config.Display = "sdl" then .ok ["-display", "sdl"]
  else if config.Display = "vnc" then
    if config.VNCPort = 0 then .error "se requiere un puerto VNC válido"
    else .ok ["-vnc", ":" ++ sprintD (wrapInt64 (config.VNCPort - 5900)), "-display", "none"]
  else .ok ["-display", "none"]

/-- Function `NewQemuVM` of model.go, with the actions it performs (the
console message about the lease is not an action of the list). -/
def NewQemuVM (h : Host) (configs : List (Option QemuConfig)) :
    Except String QemuVM × List Event :=
  match checkQemuInstalled h.qemu with
  | (.error e, t0) => (.error e, t0)
  | (.ok (), t0) =>
    match selectConfig configs with
    | .error e => (.error e, t0)
    | .ok config0 =>
      let config := fillImageURL config0
      let imgPath := getImagePath h.home config.ImageURL
      let fetch : Option String × List Event :=
        if h.statNotExist imgPath then
          (h.downloadErr config.ImageURL imgPath,
            [.stat imgPath, .downloadImage config.ImageURL imgPath])
        else (none, [.stat imgPath])
      match fetch with
      | (some e, t1) => (.error ("error descargando imagen: " ++ e), t0 ++ t1)
      | (none, t1) =>
        match h.lease with
        | .error e => (.error e, t0 ++ t1 ++ [.assignVMIP])
        | .ok (ip, mask) =>
          match displayArgs config with
          | .error e => (.error e, t0 ++ t1 ++ [.assignVMIP])
          | .ok display =>
            let vm : QemuVM :=
              { config := some config, ip := ip, sshClient := none, commandChan := .isOpen,
                process := none, defaultArgs := baseArgs config imgPath ip mask ++ display,
                cmd := none, ctx := some false }
            match h.createDirsErr with
            | some e =>
              (.error ("error creando directorios: " ++ e),
                t0 ++ t1 ++ [.assignVMIP, .createQemuDirs])
            | none => (.ok vm, t0 ++ t1 ++ [.assignVMIP, .createQemuDirs])

/-! ### ssh.go and the lifecycle operations of model.go -/

/-- What the host answers while an instance runs. -/
structure RunHost where
  /-- Whether `net.Listen("tcp", ":port")` succeeds, that is, the port is free. -/
  portFree : Int → Bool
  /-- Error of `cmd.Start()` in `Start`, `none` for nil. -/
  startErr : Option String
  /-- Whether the attempt number `i` (from 0) of `net.DialTimeout` to the address connects. -/
  dialOk : String → Nat → Bool
  /-- Value of `time.Since(start)`, in nanoseconds, read after the failed attempt number `i`. -/
  since : Nat → Int
  /-- Error of `ssh.Dial` to the address, `none` for nil. -/
  sshDialErr : String → Option String
  /-- Error of `cmd.StderrPipe()` in `OpenWindow`, `none` for nil. -/
  stderrPipeErr : Option String
  /-- Error of `cmd.Start()` in `OpenWindow`, `none` for nil. -/
  windowStartErr : Option String
  /-- Process identifier of the process `OpenWindow` starts. -/
  windowPid : Nat
  /-- Error of `sshClient.Close()`, `none` for nil. -/
  sshCloseErr : Option String
  /-- Error of running `pkill qemu-system-x86_64`, `none` for nil. -/
  pkillErr : Option String

/-- How a call ends: a nil error, an error value, or a run-time panic. -/
inductive Outcome where
  | ok
  | error (msg : String)
  | panic (msg : String)
  deriving DecidableEq, Repr

/-- Function `isPortAvailable` of ssh.go. -/
def isPortAvailable (h : RunHost) (port : Int) : Bool × List Event :=
  (h.portFree port, [.listen port])

/-- Method `connectSSH` of ssh.go. -/
def connectSSH (h : RunHost) (vm : QemuVM) : Except String Unit × QemuVM × List Event :=
  if vm.ip = "" then (.error "IP de la VM no disponible", vm, [])
  else
    match h.sshDialErr (vm.ip ++ ":22") with
    | some e => (.error e, vm, [.sshDial (vm.ip ++ ":22")])
    | none => (.ok (), { vm with sshClient := some (vm.ip ++ ":22") }, [.sshDial (vm.ip ++ ":22")])

/-- Nanoseconds of `time.Second`. -/
def second : Int := 1000000000

/-- Value of `time.Duration(timeout)*time.Second`, a 64-bit product. -/
def timeoutNs (timeout : Int) : Int := wrapInt64 (timeout * second)

/-- Loop of `waitForSSH` from the attempt number `i` on.  Each unit of `fuel`
pays for one iteration; `none` means the fuel ran out before the loop returned. -/
def waitLoop (h : RunHost) (addr : String) (limit : Int) :
    Nat → Nat → Option (Except String Unit × List Event)
  | 0, _ => none
  | fuel + 1, i =>
    if h.dialOk addr i then some (.ok (), [.dial addr])
    else if h.since i > limit then some (.error "timeout esperando SSH", [.dial addr])
    else
      match waitLoop h addr limit fuel (i + 1) with
      | none => none
      | some (r, t) => some (r, .dial addr :: .sleep second :: t)

/-- Function `waitForSSH` of ssh.go. -/
def waitForSSH (h : RunHost) (host : String) (port timeout : Int) (fuel : Nat) :
    Option (Except String Unit × List Event) :=
  waitLoop h (host ++ ":" ++ sprintD port) (timeoutNs timeout) fuel 0

/-- Lines 166-172 of `Start`: the argument vector handed to the hypervisor. -/
def startArgs (vm : QemuVM) (config : QemuConfig) : List String :=
  if config.Display = "none" then vm.defaultArgs ++ ["-daemonize"] else vm.defaultArgs

/-- Method `Start` of model.go.  The fuel is that of the readiness wait. -/
def Start (h : RunHost) (fuel : Nat) (vm : QemuVM) :
    Option (Except String Unit × QemuVM × List Event) :=
  match vm.config with
  | none => some (.error "configuración no inicializada", vm, [])
  | some config =>
    match isPortAvailable h 2222 with
    | (false, t0) => some (.error "el puerto 2222 ya está en uso", vm, t0)
    | (true, t0) =>
      let args := startArgs vm config
      match h.startErr with
      | some e =>
        some (.error ("error iniciando QEMU: " ++ e), vm, t0 ++ [.spawn qemuBin args false])
      | none =>
        match waitForSSH h vm.ip 2222 30 fuel with
        | none => none
        | some (.error e, t1) =>
          some (.error ("error esperando SSH: " ++ e), vm, t0 ++ [.spawn qemuBin args true] ++ t1)
        | some (.ok (), t1) =>
          match connectSSH h vm with
          | (.error e, vm1, t2) =>
            some (.error ("error conectando SSH: " ++ e), vm1,
              t0 ++ [.spawn qemuBin args true] ++ t1 ++ t2)
          | (.ok (), vm1, t2) =>
            some (.ok (), vm1, t0 ++ [.spawn qemuBin args true] ++ t1 ++ t2)

/-- Method `Stop` of model.go. -/
def Stop (h : RunHost) (vm : QemuVM) : Outcome × QemuVM × List Event :=
  let closing : Option String × List Event :=
    match vm.sshClient with
    | some _ => (h.sshCloseErr, [.sshClose])
    | none => (none, [])
  match closing with
  | (some e, t0) => (.error ("error cerrando conexión SSH: " ++ e), vm, t0)
  | (none, t0) =>
    match h.pkillErr with
    | some e => (.error ("error deteniendo QEMU: " ++ e), vm, t0 ++ [.run "pkill" [qemuBin]])
    | none =>
      let vm1 := { vm with config := none, ip := "" }
      match vm.commandChan with
      | .isNil => (.panic "close of nil channel", vm1, t0 ++ [.run "pkill" [qemuBin], .closeChan])
      | .isClosed =>
        (.panic "close of closed channel", vm1, t0 ++ [.run "pkill" [qemuBin], .closeChan])
      | .isOpen =>
        let vm2 := { vm1 with commandChan := .isClosed }
        match vm.ctx with
        | none =>
          (.panic "runtime error: invalid memory address or nil pointer dereference", vm2,
            t0 ++ [.run "pkill" [qemuBin], .closeChan, .cancel])
        | some _ =>
          (.ok, { vm2 with ctx := some true },
            t0 ++ [.run "pkill" [qemuBin], .closeChan, .cancel])

/-- Method `OpenWindow` of model.go.  The routine that filters the standard
error stream of the process runs concurrently and is not part of the result. -/
def OpenWindow (h : RunHost) (vm : QemuVM) : Except String Unit × QemuVM × List Event :=
  let vm1 := { vm with cmd := some (qemuBin, vm.defaultArgs) }
  match h.stderrPipeErr with
  | some e => (.error e, vm1, [])
  | none =>
    match h.windowStartErr with
    | some e =>
      (.error ("error iniciando QEMU: " ++ e), vm1, [.spawn qemuBin vm.defaultArgs false])
    | none =>
      (.ok (), { vm1 with process := some h.windowPid }, [.spawn qemuBin vm.defaultArgs true])

/-- Method `StartWithGUI` of model.go. -/
def StartWithGUI (h : RunHost) (fuel : Nat) (vm : QemuVM) :
    Option (Except String Unit × QemuVM × List Event) :=
  match Start h fuel vm with
  | none => none
  | some (.error e, vm1, t) => some (.error e, vm1, t)
  | some (.ok (), vm1, t) =>
    match OpenWindow h vm1 with
    | (r, vm2, t2) => some (r, vm2, t ++ t2)

/-! ### Formatted scanning (Go `fmt.Sscanf`), as far as snapshots.go uses it -/

/-- Table `space` of Go `fmt`: the characters scanning treats as space. -/
def isSpace (c : Char) : Bool :=
  let n := c.toNat
  (0x0009 ≤ n && n ≤ 0x000d) || n = 0x0020 || n = 0x0085 || n = 0x00a0 || n = 0x1680
    || (0x2000 ≤ n && n ≤ 0x200a) || (0x2028 ≤ n && n ≤ 0x2029) || n = 0x202f
    || n = 0x205f || n = 0x3000

/-- One step of a format string as `doScanf` and `advance` take it: a run of
space characters (with its number of newlines and whether a space follows the
last newline or stands alone), a `%` verb, a `%` that ends the format, or a
literal character. -/
inductive FmtItem where
  | spaces (newlines : Nat) (trailing : Bool)
  | verb (c : Char)
  | danglingPercent
  | lit (c : Char)
  deriving DecidableEq, Repr

/-- The item of a pending run of spaces, if there is one. -/
def flushRun : Option (Nat × Bool) → List FmtItem
  | none => []
  | some (n, t) => [.spaces n t]

/-- A pending run of spaces extended by one more space character. -/
def extendRun (run : Option (Nat × Bool)) (c : Char) : Nat × Bool :=
  if c = '\n' then ((run.getD (0, false)).1 + 1, false) else ((run.getD (0, false)).1, true)

/-- Splits a format string into its steps. -/
def parseFormatAux : Option (Nat × Bool) → List Char → List FmtItem
  | run, [] => flushRun run
  | run, c :: cs =>
    if isSpace c then parseFormatAux (some (extendRun run c)) cs
    else if c = '%' then
      match cs with
      | [] => flushRun run ++ [.danglingPercent]
      | v :: rest => flushRun run ++ .verb v :: parseFormatAux none rest
    else flushRun run ++ .lit c :: parseFormatAux none cs

/-- Steps of a format string. -/
def parseFormat (format : String) : List FmtItem := parseFormatAux none format.data

/-- Dynamic type of an operand of `Sscanf`: `*string` or `*time.Time`. -/
inductive Operand where
  | string
  | time
  deriving DecidableEq, Repr

/-- Skips the spaces other than newline at the head of the input. -/
def skipBlanks : List Char → List Char
  | [] => []
  | c :: cs => if isSpace c && c != '\n' then skipBlanks cs else c :: cs

/-- The `newlines` loop of `advance`: each newline of the format takes zero or
more spaces and then a newline or the end of the input. -/
def matchNewlines : Nat → List Char → Except String (List Char)
  | 0, input => .ok input
  | n + 1, input =>
    match skipBlanks input with
    | [] => matchNewlines n []
    | c :: cs =>
      if c = '\n' then matchNewlines n cs
      else .error "newline in format does not match input"

/-- The trailing-space part of `advance`. -/
def matchTrailing (newlines : Nat) (input : List Char) : Except String (List Char) :=
  match input with
  | [] => .ok []
  | c :: cs =>
    if newlines = 0 && !isSpace c then .error "expected space in input to match format"
    else if newlines = 0 && c = '\n' then .error "newline in input does not match format"
    else .ok (skipBlanks (c :: cs))

/-- Method `SkipSpace` of the scanner when newlines do not count as space. -/
def skipSpace : List Char → Except String (List Char)
  | [] => .ok []
  | c :: cs =>
    if c = '\n' then .error "unexpected newline"
    else if isSpace c then skipSpace cs
    else .ok (c :: cs)

/-- The next word: the characters up to the first space, and the rest. -/
def takeWord : List Char → List Char × List Char
  | [] => ([], [])
  | c :: cs => if isSpace c then ([], c :: cs) else ((takeWord cs).1.cons c, (takeWord cs).2)

/-- Method `scanOne`: a `*time.Time` operand, which is neither a `Scanner` nor
a pointer to a scannable kind, is refused before any input is read; a
`*string` operand takes the next word under the verbs `%s` and `%v` (the other
string verbs do not occur in this package and are not modelled).  The result
is the stored word and the rest of the input. -/
def scanOne (verb : Char) (op : Operand) (input : List Char) :
    Except String (String × List Char) :=
  match op with
  | .time => .error "can't scan type: *time.Time"
  | .string =>
    if verb = 's' ∨ verb = 'v' then
      match skipSpace input with
      | .error e => .error e
      | .ok [] => .error "EOF"
      | .ok (c :: cs) => .ok (String.mk (takeWord (c :: cs)).1, (takeWord (c :: cs)).2)
    else .error ("bad verb '%" ++ String.singleton verb ++ "' for string")

/-- Function `doScanf` over the steps of the format, for formats without
widths and without `%%`: the words stored into the operands, or the first
error. -/
def doScanf : List FmtItem → List Char → List Operand → Except String (List String)
  | [], _, ops => if ops = [] then .ok [] else .error "too many operands"
  | .lit c :: rest, input, ops =>
    match input with
    | [] => .error "unexpected EOF"
    | d :: ds => if c = d then doScanf rest ds ops else .error "input does not match format"
  | .danglingPercent :: _, _, _ => .error "missing verb: % at end of format string"
  | .spaces n t :: rest, input, ops =>
    match matchNewlines n input with
    | .error e => .error e
    | .ok input1 =>
      if t then
        match matchTrailing n input1 with
        | .error e => .error e
        | .ok input2 => doScanf rest input2 ops
      else doScanf rest input1 ops
  | .verb c :: rest, input, ops =>
    match (if c = 'c' then .ok input else skipSpace input) with
    | .error e => .error e
    | .ok input1 =>
      match ops with
      | [] => .error "too few operands for format"
      | op :: ops1 =>
        match scanOne c op input1 with
        | .error e => .error e
        | .ok (word, input2) =>
          match doScanf rest input2 ops1 with
          | .error e => .error e
          | .ok words => .ok (word :: words)

/-! ### snapshots.go -/

/-- Go `time.Time`, as nanoseconds on the time line; the zero value is `0`,
the instant 0001-01-01T00:00:00Z. -/
structure Time where
  ns : Int := 0
  deriving DecidableEq, Repr

/-- Method `Time.After`. -/
def Time.After (t u : Time) : Bool := decide (u.ns < t.ns)

/-- Struct `Snapshot`. -/
structure Snapshot where
  ID : String := ""
  Description : String := ""
  CreatedAt : Time := {}
  deriving DecidableEq, Repr

/-- What the host answers to the snapshot directory operations. -/
structure SnapHost where
  /-- Value of `os.Getenv("HOME")`. -/
  home : String
  /-- Result of `os.ReadDir(path)`: the entry names, sorted by name. -/
  readDir : String → Except String (List String)
  /-- Result of `os.ReadFile(path)`. -/
  readFile : String → Except String String

/-- The text `CreateSnapshot` writes to the metadata file (lines 53-54), for
the identifier, the description and the RFC-3339 text of the creation time. -/
def metaRecord (id description createdAt : String) : String :=
  "ID: " ++ id ++ "\nDescription: " ++ description ++ "\nCreatedAt: " ++ createdAt ++ "\n"

/-- Format string of the `Sscanf` call of `ListSnapshots`. -/
def metaFormat : String := "ID: %s\nDescription: %s\nCreatedAt: %s\n"

/-- Lines 135-141 of `ListSnapshots`: the `Sscanf` call with the operands
`&snapshot.ID`, `&snapshot.Description` (strings) and `&snapshot.CreatedAt`
(a `time.Time`).  No word is ever stored into the third operand. -/
def scanMeta (content : String) : Except String Snapshot :=
  match doScanf (parseFormat metaFormat) content.data [.string, .string, .time] with
  | .error e => .error e
  | .ok words => .ok { ID := words.getD 0 "", Description := words.getD 1 "" }

/-- Loop of `ListSnapshots` over the directory entries (lines 127-145). -/
def readMetas (h : SnapHost) (snapDir : String) :
    List String → Except String (List Snapshot) × List Event
  | [] => (.ok [], [])
  | name :: rest =>
    if filepathExt name = ".meta" then
      let metaPath := filepathJoin [snapDir, name]
      match h.readFile metaPath with
      | .error e => (.error ("error leyendo metadatos: " ++ e), [.readFile metaPath])
      | .ok content =>
        match scanMeta content with
        | .error e => (.error ("error parseando metadatos: " ++ e), [.readFile metaPath])
        | .ok snapshot =>
          match readMetas h snapDir rest with
          | (.error e, t) => (.error e, .readFile metaPath :: t)
          | (.ok snapshots, t) => (.ok (snapshot :: snapshots), .readFile metaPath :: t)
    else readMetas h snapDir rest

/-- Insertion into a list kept most recent first. -/
def insertByTime (s : Snapshot) : List Snapshot → List Snapshot
  | [] => [s]
  | x :: xs => if s.CreatedAt.After x.CreatedAt then s :: x :: xs else x :: insertByTime s xs

/-- The `sort.Slice` call of `ListSnapshots` (lines 148-150), whose order
function is `CreatedAt.After`. -/
def sortByTime : List Snapshot → List Snapshot
  | [] => []
  | s :: rest => insertByTime s (sortByTime rest)

/-- Method `ListSnapshots` of snapshots.go. -/
def ListSnapshots (h : SnapHost) (vm : QemuVM) : Except String (List Snapshot) × List Event :=
  match vm.config with
  | none => (.error "VM no configurada", [])
  | some _ =>
    let snapDir := filepathJoin [h.home, "qemu", "snapshots"]
    match h.readDir snapDir with
    | .error e => (.error ("error leyendo directorio de snapshots: " ++ e), [.readDir snapDir])
    | .ok files =>
      match readMetas h snapDir files with
      | (.error e, t) => (.error e, .readDir snapDir :: t)
      | (.ok snapshots, t) => (.ok (sortByTime snapshots), .readDir snapDir :: t)

/-! ### Time layouts (Go `time.Format`), as far as snapshots.go uses them -/

/-- Year, month and day of the day number `days`, counted from 0001-01-01,
in the proleptic Gregorian calendar (what `Time.Date` returns). -/
def civilFromDays (days : Int) : Int × Int × Int :=
  let z := days + 306
  let era := z / 146097
  let doe := z % 146097
  let yoe := (doe - doe / 1460 + doe / 36524 - doe / 146096) / 365
  let doy := doe - (365 * yoe + yoe / 4 - yoe / 100)
  let mp := (5 * doy + 2) / 153
  let d := doy - (153 * mp + 2) / 5 + 1
  let m := if mp < 10 then mp + 3 else mp - 9
  let y := yoe + era * 400
  (if m ≤ 2 then y + 1 else y, m, d)

/-- Zeros that bring a digit string up to the width. -/
def zeroPad (digits : String) (width : Nat) : String :=
  String.mk (List.replicate (width - digits.length) '0') ++ digits

/-- Go `appendInt(b, x, width)`: the decimal digits of `x`, padded with zeros
to the width, after a minus sign when `x` is negative. -/
def padInt (x : Int) (width : Nat) : String :=
  match x with
  | Int.ofNat n => zeroPad (Nat.repr n) width
  | Int.negSucc n => "-" ++ zeroPad (Nat.repr (n + 1)) width

/-- The fields of a time that the layouts print, in the zone of the time. -/
structure Civil where
  year : Int
  month : Int
  day : Int
  hour : Int
  minute : Int
  second : Int
  /-- Seconds east of UTC. -/
  offset : Int
  deriving DecidableEq, Repr

/-- The civil fields of a time; `zone` gives the offset of the local zone, in
seconds east of UTC, at a given second of the time line. -/
def Time.civil (zone : Int → Int) (t : Time) : Civil :=
  let utc := t.ns / 1000000000
  let loc := utc + zone utc
  let date := civilFromDays (loc / 86400)
  let sec := loc % 86400
  { year := date.1, month := date.2.1, day := date.2.2,
    hour := sec / 3600, minute := sec % 3600 / 60, second := sec % 60,
    offset := zone utc }

/-- Go `t.Format("20060102150405")`. -/
def formatStamp (c : Civil) : String :=
  padInt c.year 4 ++ padInt c.month 2 ++ padInt c.day 2
    ++ padInt c.hour 2 ++ padInt c.minute 2 ++ padInt c.second 2

/-- The zone part `Z07:00` of a layout: `Z` for UTC, otherwise the sign, the
hours and the minutes of the offset. -/
def formatZone (offset : Int) : String :=
  if offset = 0 then "Z"
  else
    let zone := Int.tdiv offset 60
    if zone < 0 then "-" ++ padInt (Int.tdiv (-zone) 60) 2 ++ ":" ++ padInt (Int.tmod (-zone) 60) 2
    else "+" ++ padInt (Int.tdiv zone 60) 2 ++ ":" ++ padInt (Int.tmod zone 60) 2

/-- Go `t.Format(time.RFC3339)`, layout `2006-01-02T15:04:05Z07:00`. -/
def formatRFC3339 (c : Civil) : String :=
  padInt c.year 4 ++ "-" ++ padInt c.month 2 ++ "-" ++ padInt c.day 2 ++ "T"
    ++ padInt c.hour 2 ++ ":" ++ padInt c.minute 2 ++ ":" ++ padInt c.second 2
    ++ formatZone c.offset

/-! ### snapshots.go: the snapshot store on disk -/

/-- The regular files of the host, each with its path and content. -/
abbrev Disk := List (String × String)

/-- Whether a file exists at the path. -/
def fileExists (path : String) (d : Disk) : Bool := d.any (fun f => decide (f.1 = path))

/-- The disk without the file at the path. -/
def removeFile (path : String) (d : Disk) : Disk := d.filter (fun f => decide (f.1 ≠ path))

/-- The disk with the file at the path holding the content. -/
def writeFile (path content : String) (d : Disk) : Disk := (path, content) :: removeFile path d

/-- Content of the file at the path, when there is one. -/
def fileContent (path : String) (d : Disk) : Option String :=
  (d.find? (fun f => decide (f.1 = path))).map (fun f => f.2)

/-- What the host answers to the operations of the snapshot store. -/
structure StoreHost where
  /-- Value of `os.Getenv("HOME")`. -/
  home : String
  /-- Offset of the local zone, in seconds east of UTC, at a second of the time line. -/
  zone : Int → Int
  /-- Value of `time.Now()` in `generateSnapshotID`. -/
  nowID : Time
  /-- Value of `time.Now()` for `CreatedAt`. -/
  nowCreated : Time
  /-- Error of `os.MkdirAll` on the snapshot directory, `none` for nil. -/
  mkdirErr : Option String
  /-- Error of `os.Create(path)`, `none` for nil. -/
  createErr : String → Option String
  /-- Error of the `Fprintf` to the metadata file, `none` for nil. -/
  writeErr : Option String
  /-- Error of running `qemu-img snapshot -c`, `none` for nil. -/
  qemuImgErr : Option String
  /-- Error of `os.Remove(path)` on an existing file, `none` for nil. -/
  removeErr : String → Option String

/-- Function `generateSnapshotID` of snapshots.go, for the reading `now` of the clock. -/
def generateSnapshotID (zone : Int → Int) (now : Time) : String :=
  formatStamp (now.civil zone)

/-- Go `os.Remove(path)` on a regular file: it fails when there is no file
at the path or when the host refuses, and then leaves the disk alone. -/
def osRemove (h : StoreHost) (d : Disk) (path : String) : Option String × Disk :=
  if fileExists path d then
    match h.removeErr path with
    | some e => (some e, d)
    | none => (none, removeFile path d)
  else (some ("remove " ++ path ++ ": no such file or directory"), d)

/-- Method `CreateSnapshot` of snapshots.go, with the disk it leaves and the
actions it performs. -/
def CreateSnapshot (h : StoreHost) (d : Disk) (vm : QemuVM) (description : String) :
    Except String Snapshot × Disk × List Event :=
  match vm.config with
  | none => (.error "VM no configurada", d, [])
  | some config =>
    let snapshot : Snapshot :=
      { ID := generateSnapshotID h.zone h.nowID, Description := description,
        CreatedAt := h.nowCreated }
    let snapDir := filepathJoin [h.home, "qemu", "snapshots"]
    match h.mkdirErr with
    | some e => (.error ("error creando directorio de snapshots: " ++ e), d, [.mkdirAll snapDir])
    | none =>
      let metaPath := filepathJoin [snapDir, snapshot.ID ++ ".meta"]
      match h.createErr metaPath with
      | some e =>
        (.error ("error creando archivo de metadatos: " ++ e), d,
          [.mkdirAll snapDir, .create metaPath])
      | none =>
        let d1 := writeFile metaPath "" d
        match h.writeErr with
        | some e =>
          (.error ("error escribiendo metadatos: " ++ e), d1,
            [.mkdirAll snapDir, .create metaPath, .write metaPath])
        | none =>
          let d2 := writeFile metaPath
            (metaRecord snapshot.ID snapshot.Description
              (formatRFC3339 (snapshot.CreatedAt.civil h.zone))) d1
          if config.SnapshotsInMemory then
            (.ok snapshot, d2, [.mkdirAll snapDir, .create metaPath, .write metaPath])
          else
            let snapPath := filepathJoin [snapDir, snapshot.ID ++ ".qcow2"]
            match h.qemuImgErr with
            | some e =>
              (.error ("error creando snapshot en disco: " ++ e), d2,
                [.mkdirAll snapDir, .create metaPath, .write metaPath,
                 .run "qemu-img" ["snapshot", "-c", snapshot.ID, snapPath]])
            | none =>
              (.ok snapshot, d2,
                [.mkdirAll snapDir, .create metaPath, .write metaPath,
                 .run "qemu-img" ["snapshot", "-c", snapshot.ID, snapPath]])

/-- Method `DeleteSnapshot` of snapshots.go, with the disk it leaves and the
actions it performs. -/
def DeleteSnapshot (h : StoreHost) (d : Disk) (vm : QemuVM) (id : String) :
    Except String Unit × Disk × List Event :=
  match vm.config with
  | none => (.error "VM no configurada", d, [])
  | some config =>
    let snapDir := filepathJoin [h.home, "qemu", "snapshots"]
    let metaPath := filepathJoin [snapDir, id ++ ".meta"]
    if !fileExists metaPath d then
      (.error ("snapshot no encontrado: " ++ id), d, [.stat metaPath])
    else
      let snapPath := filepathJoin [snapDir, id ++ ".qcow2"]
      let artifact : Option String × Disk × List Event :=
        if config.SnapshotsInMemory then (none, d, [])
        else ((osRemove h d snapPath).1, (osRemove h d snapPath).2, [.remove snapPath])
      match artifact with
      | (some e, d1, t1) =>
        (.error ("error eliminando snapshot en disco: " ++ e), d1, .stat metaPath :: t1)
      | (none, d1, t1) =>
        match osRemove h d1 metaPath with
        | (some e, d2) =>
          (.error ("error eliminando metadatos: " ++ e), d2,
            .stat metaPath :: t1 ++ [.remove metaPath])
        | (none, d2) => (.ok (), d2, .stat metaPath :: t1 ++ [.remove metaPath])

/-- Path of the snapshot directory under the home directory. -/
def snapshotDirOf (home : String) : String := filepathJoin [home, "qemu", "snapshots"]

/-- Path of the metadata record of the snapshot `id` under the home directory. -/
def metaPathOf (home id : String) : String :=
  filepathJoin [filepathJoin [home, "qemu", "snapshots"], id ++ ".meta"]

/-- Path of the checkpoint artifact of the snapshot `id` under the home directory. -/
def artifactPathOf (home id : String) : String :=
  filepathJoin [filepathJoin [home, "qemu", "snapshots"], id ++ ".qcow2"]

/-! ### net.go -/

/-- An address of a network interface, as `iface.Addrs()` lists it. -/
inductive Addr where
  /-- A `*net.IPNet` whose address has a 4-byte form (`To4` is not nil): the
  four octets and the bytes of the mask. -/
  | ipnet4 (a b c d : Nat) (mask : List Nat)
  /-- A `*net.IPNet` whose address has no 4-byte form: the text of the
  address, the text of the masked address and the leading ones of the mask. -/
  | ipnet6 (text masked : String) (ones : Int)
  /-- An address of another type than `*net.IPNet`. -/
  | other
  deriving DecidableEq, Repr

/-- A network interface of the host. -/
structure Interface where
  /-- Whether `Flags&net.FlagLoopback != 0`. -/
  loopback : Bool
  /-- Whether `Flags&net.FlagUp != 0`. -/
  up : Bool
  /-- Result of `iface.Addrs()`. -/
  addrs : Except String (List Addr)

/-- What the host answers to the two calls of `net.Interfaces()`. -/
structure NetHost where
  /-- Result of the call in `getHostIP`. -/
  interfacesFirst : Except String (List Interface)
  /-- Result of the call in `assignVMIP`. -/
  interfacesSecond : Except String (List Interface)

/-- Text of an IPv4 address (`IP.String`): the octets in dotted decimal. -/
def dotted (a b c d : Nat) : String :=
  Nat.repr a ++ "." ++ Nat.repr b ++ "." ++ Nat.repr c ++ "." ++ Nat.repr d

/-- The inner loop of `simpleMaskLength` on one byte: the number of leading
one bits, and the byte shifted left by that number. -/
def countHighBits : Nat → Nat → Nat × Nat
  | 0, v => (0, v)
  | fuel + 1, v =>
    if v / 128 % 2 = 1 then
      ((countHighBits fuel (v * 2 % 256)).1 + 1, (countHighBits fuel (v * 2 % 256)).2)
    else (0, v)

/-- Go `simpleMaskLength`: the number of leading ones of a mask of ones
followed by zeros, and `-1` for any other mask. -/
def simpleMaskLength : List Nat → Int
  | [] => 0
  | v :: rest =>
    if v = 255 then
      if simpleMaskLength rest = -1 then -1 else 8 + simpleMaskLength rest
    else if (countHighBits 8 v).2 ≠ 0 then -1
    else if rest.all (fun m => decide (m = 0)) then ((countHighBits 8 v).1 : Int)
    else -1

/-- First result of Go `IPMask.Size`. -/
def maskOnes (mask : List Nat) : Int :=
  if simpleMaskLength mask = -1 then 0 else simpleMaskLength mask

/-- Text of `ip.Mask(mask)` for an address with a 4-byte form: a mask of 16
bytes that starts with twelve `0xff` counts by its last four bytes, and a mask
of any other length than four gives the nil address. -/
def maskedText (a b c d : Nat) (mask : List Nat) : String :=
  let m :=
    if mask.length = 16 ∧ (mask.take 12).all (fun v => decide (v = 255)) then mask.drop 12
    else mask
  match m with
  | [m0, m1, m2, m3] => dotted (a &&& m0) (b &&& m1) (c &&& m2) (d &&& m3)
  | _ => "<nil>"

/-- The inner loop of `getHostIP`: the text of the first address with a 4-byte form. -/
def firstIPv4 : List Addr → Option String
  | [] => none
  | .ipnet4 a b c d _ :: _ => some (dotted a b c d)
  | _ :: rest => firstIPv4 rest

/-- The outer loop of `getHostIP`: loopback and inactive interfaces and those
whose addresses cannot be listed are skipped. -/
def scanInterfaces : List Interface → Except String String
  | [] => .error "no se pudo obtener una dirección IP válida"
  | i :: rest =>
    if i.loopback || !i.up then scanInterfaces rest
    else
      match i.addrs with
      | .error _ => scanInterfaces rest
      | .ok addrs =>
        match firstIPv4 addrs with
        | some ip => .ok ip
        | none => scanInterfaces rest

/-- Function `getHostIP` of net.go. -/
def getHostIP (h : NetHost) : Except String String :=
  match h.interfacesFirst with
  | .error e => .error ("error obteniendo interfaces de red: " ++ e)
  | .ok interfaces => scanInterfaces interfaces

/-- Value of a string of decimal digits. -/
def digitsValue (cs : List Char) : Nat :=
  cs.foldl (fun acc c => acc * 10 + (c.toNat - '0'.toNat)) 0

/-- One field of a dotted IPv4 text: one to three digits, no leading zero, at most 255. -/
def validOctet (s : String) : Bool :=
  s.data != [] && s.data.all isDigit && decide (s.data.length ≤ 3)
    && (decide (s.data.length = 1) || s.data.head? != some '0')
    && decide (digitsValue s.data ≤ 255)

/-- Whether `net.ParseIP` accepts the text, for the dotted IPv4 form (the one
form the text of an address with a 4-byte form has). -/
def parsesAsIPv4 (s : String) : Bool :=
  match stringsSplit s '.' with
  | [a, b, c, d] => validOctet a && validOctet b && validOctet c && validOctet d
  | _ => false

/-- The inner loop of the mask search of `assignVMIP`: the network in CIDR
notation of the first `*net.IPNet` whose address text is the host address. -/
def matchMask (hostIP : String) : List Addr → Option String
  | [] => none
  | .ipnet4 a b c d mask :: rest =>
    if dotted a b c d = hostIP then some (maskedText a b c d mask ++ "/" ++ sprintD (maskOnes mask))
    else matchMask hostIP rest
  | .ipnet6 text masked ones :: rest =>
    if text = hostIP then some (masked ++ "/" ++ sprintD ones) else matchMask hostIP rest
  | .other :: rest => matchMask hostIP rest

/-- The outer loop of the mask search of `assignVMIP` over all interfaces;
`netmask` is the value found so far, and a later match replaces it. -/
def findNetmask (hostIP : String) : List Interface → String → String
  | [], netmask => netmask
  | i :: rest, netmask =>
    match i.addrs with
    | .error _ => findNetmask hostIP rest netmask
    | .ok addrs =>
      match matchMask hostIP addrs with
      | some found => findNetmask hostIP rest found
      | none => findNetmask hostIP rest netmask

/-- Function `assignVMIP` of net.go: the address of the VM and the network. -/
def assignVMIP (h : NetHost) : Except String (String × String) :=
  match getHostIP h with
  | .error e => .error e
  | .ok hostIP =>
    if !parsesAsIPv4 hostIP then .error "dirección IP inválida"
    else
      match h.interfacesSecond with
      | .error e => .error ("error obteniendo interfaces: " ++ e)
      | .ok interfaces =>
        let netmask := findNetmask hostIP interfaces ""
        if netmask = "" then .error "no se pudo determinar la máscara de red"
        else
          let octets := stringsSplit hostIP '.'
          if octets.length ≠ 4 then .error "formato de IP inválido"
          else .ok (String.intercalate "." (octets.set 3 "100"), netmask)

/-! ### The launch arguments as the specification words them -/

/-- The specified argument vector of a launch: memory, cores, disk, the
user-mode NIC with the lease and the forwarded management port, the network
device, then the display directive, then `-daemonize` for the headless mode
`none` only.  `index` is the display index of the remote framebuffer. -/
def specLaunchArgs (r c : Int) (d : String) (index : Int) (ip mask path : String) :
    List String :=
  ["-m", sprintD r ++ "G", "-smp", sprintD c, "-hda", path,
   "-netdev", "user,id=net0,net=" ++ mask ++ ",dhcpstart=" ++ ip ++ ",hostfwd=tcp::2222-:22",
   "-device", "e1000,netdev=net0"]
  ++ (if d = "gtk" then ["-display", "gtk"]
      else if d = "sdl" then ["-display", "sdl"]
      else if d = "vnc" then ["-vnc", ":" ++ sprintD index, "-display", "none"]
      else ["-display", "none"])
  ++ (if d = "none" then ["-daemonize"] else [])

/-- The only means the package has to stop the hypervisor process: the
`pkill` command that `Stop` runs. -/
def stopsProcess : Event → Bool
  | .run bin _ => bin = "pkill"
  | _ => false

/-- Whether the action starts a process successfully. -/
def startsProcess : Event → Bool
  | .spawn _ _ started => started
  | _ => false

/-- Whether the action probes a local port for being free. -/
def probesPort (port : Int) : Event → Bool
  | .listen p => p = port
  | _ => false

/-! ### Concrete hosts, configurations and instances -/

/-- A host with the hypervisor 8.2.0 installed, no cached image, a working
download, the lease `192.168.1.100` in `192.168.1.0/24`, and working
directory creation. -/
def freshHost : Host :=
  { qemu := { lookPathOk := true, versionOutput := .ok "QEMU emulator version 8.2.0\n" },
    home := "/home/u",
    statNotExist := fun _ => true,
    downloadErr := fun _ _ => none,
    lease := .ok ("192.168.1.100", "192.168.1.0/24"),
    createDirsErr := none }

/-- A host whose installed hypervisor reports version 10.0.0. -/
def qemuTen : QemuHost :=
  { lookPathOk := true, versionOutput := .ok "QEMU emulator version 10.0.0\n" }

/-- A configuration with the minimum resources and the `vnc` display without a port. -/
def vncNoPort : QemuConfig := { RAM := 1, CPU := 1, DiskSize := 1, Display := "vnc" }

/-- The configuration `main` of cmd/main.go builds: only `Display` and `VNCPort` are set. -/
def mainConfig : QemuConfig := { Display := "sdl", VNCPort := 5900 }

/-- A configuration with the documented resource values and no display. -/
def noDisplayConfig : QemuConfig := { RAM := 4, CPU := 2, DiskSize := 10 }

/-- Path of the default image under the home directory of `freshHost`. -/
def sampleImage : String := "/home/u/qemu/img/debian-12-nocloud-amd64-daily.qcow2"

/-- A configuration for a remote framebuffer on port 5901. -/
def vncConfig : QemuConfig :=
  { RAM := 2, CPU := 1, DiskSize := 8, Display := "vnc", VNCPort := 5901 }

/-- A host on which port 2222 is free, the hypervisor starts, the first
readiness dial connects, the session dial is refused, and the clock reads
`i` seconds after the failed attempt number `i`. -/
def sessionRefusedHost : RunHost :=
  { portFree := fun _ => true,
    startErr := none,
    dialOk := fun _ _ => true,
    since := fun i => i * second,
    sshDialErr := fun _ => some "connection refused",
    stderrPipeErr := none,
    windowStartErr := none,
    windowPid := 4242,
    sshCloseErr := none,
    pkillErr := none }

/-- The instance `NewQemuVM` builds on `freshHost` from `vncConfig`. -/
def vncVM : QemuVM :=
  { config := some { vncConfig with ImageURL := defaultImageURL },
    ip := "192.168.1.100", sshClient := none, commandChan := .isOpen, process := none,
    defaultArgs :=
      ["-m", "2G", "-smp", "1", "-hda", sampleImage,
       "-netdev", "user,id=net0,net=192.168.1.0/24,dhcpstart=192.168.1.100,hostfwd=tcp::2222-:22",
       "-device", "e1000,netdev=net0", "-vnc", ":1", "-display", "none"],
    cmd := none, ctx := some false }

/-- A host on which port 2222 is free and the hypervisor starts, but no
readiness dial ever connects; the clock reads `i` seconds and one millisecond
after the failed attempt number `i`. -/
def neverReadyHost : RunHost :=
  { sessionRefusedHost with
    dialOk := fun _ _ => false,
    since := fun i => i * second + 1000000 }

/-- The actions of a readiness wait on the address that fails `n` times, with
a sleep of one second after each failure, and then ends with one more dial. -/
def attempts (addr : String) : Nat → List Event
  | 0 => [.dial addr]
  | n + 1 => .dial addr :: .sleep second :: attempts addr n

/-- The waits of the sample runs dial `192.168.1.100:2222`. -/
def dialsAndSleeps (n : Nat) : List Event := attempts "192.168.1.100:2222" n

/-- A host on which everything succeeds: port 2222 is free, the hypervisor
starts, the first readiness dial connects and so does the session dial. -/
def readyHost : RunHost :=
  { sessionRefusedHost with sshDialErr := fun _ => none }

/-- A host on which port 2222 is already bound by another listener. -/
def busyHost : RunHost :=
  { readyHost with portFree := fun port => decide (port ≠ 2222) }

/-- Arguments of the instance built without a configuration on `freshHost`. -/
def defaultLaunchArgs : List String :=
  ["-m", "4G", "-smp", "2", "-hda", sampleImage,
   "-netdev", "user,id=net0,net=192.168.1.0/24,dhcpstart=192.168.1.100,hostfwd=tcp::2222-:22",
   "-device", "e1000,netdev=net0", "-display", "gtk"]

/-- The instance `NewQemuVM()` builds on `freshHost`. -/
def defaultVM : QemuVM :=
  { config := some { RAM := 4, CPU := 2, DiskSize := 10, ImageURL := defaultImageURL,
                     Display := "gtk" },
    ip := "192.168.1.100", sshClient := none, commandChan := .isOpen, process := none,
    defaultArgs := defaultLaunchArgs, cmd := none, ctx := some false }

/-- The instance `defaultVM` after a successful `OpenWindow`. -/
def windowVM : QemuVM :=
  { defaultVM with cmd := some (qemuBin, defaultLaunchArgs), process := some 4242 }

/-- The instance `windowVM` after a successful `Stop`. -/
def stoppedVM : QemuVM :=
  { windowVM with config := none, ip := "", commandChan := .isClosed, ctx := some true }

/-- A host whose snapshot directory holds one snapshot, written by
`CreateSnapshot` with the description `before`: its metadata record and its
checkpoint artifact. -/
def oneSnapshotHost : SnapHost :=
  { home := "/home/u",
    readDir := fun path =>
      if path = "/home/u/qemu/snapshots" then
        .ok ["20240501100000.meta", "20240501100000.qcow2"]
      else .error "no such file or directory",
    readFile := fun path =>
      if path = "/home/u/qemu/snapshots/20240501100000.meta" then
        .ok (metaRecord "20240501100000" "before" "2024-05-01T10:00:00Z")
      else .error "no such file or directory" }

/-- Path of the metadata record of the sample snapshot. -/
def sampleMeta : String := "/home/u/qemu/snapshots/20240501100000.meta"

/-- Path of the checkpoint artifact of the sample snapshot. -/
def sampleArtifact : String := "/home/u/qemu/snapshots/20240501100000.qcow2"

/-- The instant 2024-05-01T10:00:00.1Z. -/
def tenOClock : Time := { ns := (739006 * 86400 + 36000) * 1000000000 + 100000000 }

/-- The instant 2024-05-01T10:00:00.9Z, eight tenths of a second after `tenOClock`. -/
def tenOClockLater : Time := { ns := (739006 * 86400 + 36000) * 1000000000 + 900000000 }

/-- A store host in the UTC zone whose clock reads `tenOClock` and on which
every operation succeeds. -/
def storeHost : StoreHost :=
  { home := "/home/u", zone := fun _ => 0, nowID := tenOClock, nowCreated := tenOClock,
    mkdirErr := none, createErr := fun _ => none, writeErr := none, qemuImgErr := none,
    removeErr := fun _ => none }

/-- The host `storeHost`, except that the metadata record of the sample
snapshot cannot be removed. -/
def lockedMetaHost : StoreHost :=
  { storeHost with
    removeErr := fun path => if path = sampleMeta then some "operation not permitted" else none }

/-- A disk that holds the sample snapshot: its metadata record and its artifact. -/
def snapshotDisk : Disk :=
  [(sampleMeta, metaRecord "20240501100000" "before" "2024-05-01T10:00:00Z"),
   (sampleArtifact, "qcow2")]

/-- The instance `defaultVM` with the in-memory snapshot mode. -/
def memoryVM : QemuVM :=
  { defaultVM with
    config := some { RAM := 4, CPU := 2, DiskSize := 10, ImageURL := defaultImageURL,
                     SnapshotsInMemory := true, Display := "gtk" } }

/-- The run of `DeleteSnapshot` on the sample snapshot whose metadata record
cannot be removed. -/
def lockedDelete : Except String Unit × Disk × List Event :=
  DeleteSnapshot lockedMetaHost snapshotDisk defaultVM "20240501100000"

/-- The host `storeHost` eight tenths of a second later. -/
def laterHost : StoreHost :=
  { storeHost with nowID := tenOClockLater, nowCreated := tenOClockLater }

/-- The disk after `CreateSnapshot` has written the record of the sample
snapshot with the given description. -/
def recordDisk (description : String) : Disk :=
  [(sampleMeta, metaRecord "20240501100000" description "2024-05-01T10:00:00Z")]

/-- Actions of a successful `CreateSnapshot` of the sample snapshot on disk. -/
def createActions : List Event :=
  [.mkdirAll "/home/u/qemu/snapshots", .create sampleMeta, .write sampleMeta,
   .run "qemu-img" ["snapshot", "-c", "20240501100000", sampleArtifact]]

/-- A local zone one hour east of UTC until 2024-10-27T01:00:00Z and at UTC
from then on (the end of summer time). -/
def summerTimeEnds : Int → Int :=
  fun utc => if utc < 739185 * 86400 + 3600 then 3600 else 0

/-- The instant 2024-10-27T00:30:00Z, half an hour before the end of summer time. -/
def beforeSwitch : Time := { ns := (739185 * 86400 + 1800) * 1000000000 }

/-- The instant 2024-10-27T01:00:00Z, the end of summer time. -/
def atSwitch : Time := { ns := (739185 * 86400 + 3600) * 1000000000 }

/-- The loopback interface `127.0.0.1/8`. -/
def loopbackInterface : Interface :=
  { loopback := true, up := true, addrs := .ok [.ipnet4 127 0 0 1 [255, 0, 0, 0]] }

/-- A host whose active interface has the address `192.168.1.d` in a `/24`
network, after a link-local IPv6 address. -/
def lanHost (d : Nat) : NetHost :=
  { interfacesFirst := .ok [loopbackInterface,
      { loopback := false, up := true,
        addrs := .ok [.ipnet6 "fe80::1" "fe80::" 64, .ipnet4 192 168 1 d [255, 255, 255, 0]] }],
    interfacesSecond := .ok [loopbackInterface,
      { loopback := false, up := true,
        addrs := .ok [.ipnet6 "fe80::1" "fe80::" 64, .ipnet4 192 168 1 d [255, 255, 255, 0]] }] }

/-! ## Part 2: theorems -/

/-! ### Construction: validation and defaults -/

/-- A configuration whose RAM, CPU or disk size is below 1 is rejected right
after the hypervisor check: the only actions are those of `checkQemuInstalled`. -/
theorem NewQemuVM_small_values (h : Host) (config : QemuConfig) (rest : List (Option QemuConfig))
    (hbad : config.RAM < 1 ∨ config.CPU < 1 ∨ config.DiskSize < 1) :
    (∃ e, (NewQemuVM h (some config :: rest)).1 = .error e) ∧
      (NewQemuVM h (some config :: rest)).2 = (checkQemuInstalled h.qemu).2 := by
  unfold NewQemuVM
  rcases hc : checkQemuInstalled h.qemu with ⟨r, t0⟩
  cases r with
  | error e => exact ⟨⟨e, rfl⟩, rfl⟩
  | ok u =>
    have hsel : ∃ e, selectConfig (some config :: rest) = .error e := by
      unfold selectConfig
      by_cases h1 : config.RAM < 1
      · simp [h1]
      · by_cases h2 : config.CPU < 1
        · simp [h1, h2]
        · have h3 : config.DiskSize < 1 := by
            rcases hbad with hb | hb | hb
            · exact absurd hb h1
            · exact absurd hb h2
            · exact hb
          simp [h1, h2, h3]
    obtain ⟨e, he⟩ := hsel
    simp [he]

/-- Claim C1, at the failing input: the `vnc` configuration without a port is
rejected only after the image file has been looked up and fetched and the
host network has been inspected for the lease. -/
theorem C1_vnc_port_checked_after_fetch_and_lease :
    NewQemuVM freshHost [some vncNoPort] =
      (.error "se requiere un puerto VNC válido",
        [.lookPath qemuBin, .run qemuBin ["--version"], .stat sampleImage,
         .downloadImage defaultImageURL sampleImage, .assignVMIP]) := by
  rfl

/-- Without a configuration, or with a nil one, the instance is built from
RAM 4, CPU 2, disk 10, the `gtk` display and the default image URL. -/
theorem selectConfig_absent :
    selectConfig [] = .ok { RAM := 4, CPU := 2, DiskSize := 10, Display := "gtk" } ∧
    (∀ rest, selectConfig (none :: rest)
      = .ok { RAM := 4, CPU := 2, DiskSize := 10, Display := "gtk" }) ∧
    (fillImageURL { RAM := 4, CPU := 2, DiskSize := 10, Display := "gtk" }).ImageURL
      = defaultImageURL := by
  refine ⟨rfl, fun _ => rfl, rfl⟩

/-- Claim C2, at the failing inputs: the configuration of cmd/main.go, which
leaves RAM, CPU and disk size unset, is rejected with the RAM error instead of
being completed with 4, 2 and 10; and a configuration that leaves the display
unset gets `sdl`, not `gtk`. -/
theorem C2_unset_fields_not_defaulted :
    NewQemuVM freshHost [some mainConfig] =
      (.error "RAM debe ser al menos 1GB", [.lookPath qemuBin, .run qemuBin ["--version"]]) ∧
    selectConfig [some noDisplayConfig] =
      .ok { RAM := 4, CPU := 2, DiskSize := 10, Display := "sdl" } := by
  exact ⟨rfl, rfl⟩

/-! ### Version gate -/

/-- The two small examples of the version gate come out as expected. -/
theorem compareVersions_small :
    compareVersions "8.0.9" "8.1.0" = -1 ∧ compareVersions "8.1.0" "8.1.0" = 0 := by
  decide

/-- Claim C3, at the failing input: the parts are compared as strings, so
`10.0.0` counts as older than `8.1.0` (as does `9.0.0` against `8.12.0` the
other way round), and an installed 10.0.0 is refused. -/
theorem C3_compareVersions_lexical :
    compareVersions "10.0.0" "8.1.0" = -1 ∧
    compareVersions "8.12.0" "9.0.0" = -1 ∧ compareVersions "8.9.0" "8.12.0" = 1 ∧
    checkQemuVersion qemuTen
      = .error "versión de QEMU (10.0.0) es menor que la requerida (8.1.0)" := by
  refine ⟨by decide, by decide, by decide, rfl⟩

/-! ### Launch arguments -/

/-- A successful construction: the instance holds the selected configuration
with the image URL filled in, the lease address, and the base arguments
followed by the display directive. -/
theorem NewQemuVM_ok (h : Host) (configs : List (Option QemuConfig)) (vm : QemuVM)
    (t : List Event) (hnew : NewQemuVM h configs = (.ok vm, t)) :
    ∃ config0 ip mask display,
      selectConfig configs = .ok config0 ∧ h.lease = .ok (ip, mask) ∧
      displayArgs (fillImageURL config0) = .ok display ∧
      vm.config = some (fillImageURL config0) ∧ vm.ip = ip ∧
      vm.defaultArgs =
        baseArgs (fillImageURL config0)
          (getImagePath h.home (fillImageURL config0).ImageURL) ip mask ++ display := by
  unfold NewQemuVM at hnew
  split at hnew
  · simp at hnew
  · split at hnew
    · simp at hnew
    · rename_i config0 hsel
      simp only at hnew
      split at hnew
      · simp at hnew
      · split at hnew
        · simp at hnew
        · rename_i ip mask hl
          split at hnew
          · simp at hnew
          · rename_i display hd
            split at hnew
            · simp at hnew
            · simp only [Prod.mk.injEq, Except.ok.injEq] at hnew
              refine ⟨config0, ip, mask, display, hsel, hl, hd, ?_, ?_, ?_⟩ <;>
                simp [← hnew.1]

/-- The readiness loop only dials and sleeps. -/
theorem waitLoop_events (h : RunHost) (addr : String) (limit : Int) (fuel i : Nat)
    (r : Except String Unit) (t : List Event)
    (hw : waitLoop h addr limit fuel i = some (r, t)) :
    ∀ e ∈ t, e = .dial addr ∨ e = .sleep second := by
  induction fuel generalizing i r t with
  | zero => simp [waitLoop] at hw
  | succ n ih =>
    unfold waitLoop at hw
    split at hw
    · simp only [Option.some.injEq, Prod.mk.injEq] at hw
      intro e he
      rw [← hw.2] at he
      simp at he
      exact Or.inl he
    · split at hw
      · simp only [Option.some.injEq, Prod.mk.injEq] at hw
        intro e he
        rw [← hw.2] at he
        simp at he
        exact Or.inl he
      · split at hw
        · simp at hw
        · rename_i r1 t1 hrec
          simp only [Option.some.injEq, Prod.mk.injEq] at hw
          intro e he
          rw [← hw.2] at he
          simp only [List.mem_cons] at he
          rcases he with he | he | he
          · exact Or.inl he
          · exact Or.inr he
          · exact ih (i + 1) r1 t1 hrec e he

/-- The session step dials port 22 at the address of the instance, and nothing else. -/
theorem connectSSH_events (h : RunHost) (vm : QemuVM) :
    ∀ e ∈ (connectSSH h vm).2.2, e = .sshDial (vm.ip ++ ":22") := by
  unfold connectSSH
  split
  · simp
  · split <;> simp

/-- Shape of every run of `Start` on a configured instance: either the port
probe fails and nothing else happens, or the probe is followed by one start of
the hypervisor with the arguments of `startArgs`, and then only by readiness
dials to port 2222, sleeps and the session dial to port 22. -/
theorem Start_trace (rh : RunHost) (fuel : Nat) (vm : QemuVM) (config : QemuConfig)
    (hc : vm.config = some config) (r : Except String Unit) (vm1 : QemuVM) (t : List Event)
    (hs : Start rh fuel vm = some (r, vm1, t)) :
    (rh.portFree 2222 = false ∧ t = [.listen 2222] ∧
        r = .error "el puerto 2222 ya está en uso") ∨
    (rh.portFree 2222 = true ∧ ∃ tail,
        t = .listen 2222 :: .spawn qemuBin (startArgs vm config) rh.startErr.isNone :: tail ∧
        ∀ e ∈ tail, e = .dial (vm.ip ++ ":" ++ sprintD 2222) ∨ e = .sleep second
          ∨ e = .sshDial (vm.ip ++ ":22")) := by
  unfold Start at hs
  simp only [hc, isPortAvailable] at hs
  split at hs
  · rename_i t0 hp
    simp only [Prod.mk.injEq] at hp
    simp only [Option.some.injEq, Prod.mk.injEq] at hs
    exact Or.inl ⟨hp.1, by rw [← hs.2.2, ← hp.2], hs.1.symm⟩
  · rename_i t0 hp
    simp only [Prod.mk.injEq] at hp
    refine Or.inr ⟨hp.1, ?_⟩
    split at hs
    · rename_i e he
      simp only [Option.some.injEq, Prod.mk.injEq] at hs
      refine ⟨[], ?_, by simp⟩
      rw [← hs.2.2, ← hp.2, he]
      rfl
    · rename_i he
      split at hs
      · simp at hs
      · rename_i e t1 hw
        simp only [Option.some.injEq, Prod.mk.injEq] at hs
        refine ⟨t1, ?_, ?_⟩
        · rw [← hs.2.2, ← hp.2, he]
          rfl
        · intro ev hev
          rcases waitLoop_events _ _ _ _ _ _ _ hw ev hev with h1 | h1
          · exact Or.inl h1
          · exact Or.inr (Or.inl h1)
      · rename_i t1 hw
        have hwe := waitLoop_events _ _ _ _ _ _ _ hw
        have hce := connectSSH_events rh vm
        split at hs
        all_goals
          rename_i vm2 t2 hconn
          simp only [Option.some.injEq, Prod.mk.injEq] at hs
          rw [hconn] at hce
          refine ⟨t1 ++ t2, ?_, ?_⟩
          · rw [← hs.2.2, ← hp.2, he]
            simp only [Option.isNone_none, List.singleton_append, List.cons_append,
              List.nil_append, List.append_assoc]
          · intro ev hev
            rcases List.mem_append.1 hev with h1 | h1
            · rcases hwe ev h1 with h2 | h2
              · exact Or.inl h2
              · exact Or.inr (Or.inl h2)
            · exact Or.inr (Or.inr (hce ev h1))

/-- Within the signed 64-bit range, wrapping changes nothing. -/
theorem wrapInt64_of_range (x : Int) (hlo : -9223372036854775808 ≤ x)
    (hhi : x ≤ 9223372036854775807) : wrapInt64 x = x := by
  unfold wrapInt64
  omega

/-- Filling in the image URL leaves the other fields alone. -/
theorem fillImageURL_fields (c : QemuConfig) :
    (fillImageURL c).RAM = c.RAM ∧ (fillImageURL c).CPU = c.CPU ∧
    (fillImageURL c).Display = c.Display ∧ (fillImageURL c).VNCPort = c.VNCPort := by
  unfold fillImageURL
  split <;> exact ⟨rfl, rfl, rfl, rfl⟩

/-- Claim C4: for a valid configuration (resources at least 1, one of the
four display modes, a port for `vnc`) from which `NewQemuVM` built the
instance on the lease `(ip, mask)`, every hypervisor start in a run of `Start`
carries exactly the specified vector (base arguments, display directive,
`-daemonize` for the mode `none` only), and when port 2222 is free such a
start is in the run.  The display index of `vnc` is the Go value of
`VNCPort-5900`, which is the difference itself for every port from which 5900
can be subtracted in 64 bits. -/
theorem C4_start_argument_vector (h : Host) (rh : RunHost) (fuel : Nat) (config : QemuConfig)
    (rest : List (Option QemuConfig)) (vm vm1 : QemuVM) (t t1 : List Event) (ip mask : String)
    (r : Except String Unit)
    (hram : 1 ≤ config.RAM) (hcpu : 1 ≤ config.CPU) (hdisk : 1 ≤ config.DiskSize)
    (hmode : config.Display = "none" ∨ config.Display = "gtk" ∨ config.Display = "sdl"
      ∨ config.Display = "vnc")
    (hport : config.Display = "vnc" → config.VNCPort ≠ 0)
    (hlease : h.lease = .ok (ip, mask))
    (hnew : NewQemuVM h (some config :: rest) = (.ok vm, t))
    (hstart : Start rh fuel vm = some (r, vm1, t1)) :
    (∀ bin args started, Event.spawn bin args started ∈ t1 →
      bin = qemuBin ∧
      args = specLaunchArgs config.RAM config.CPU config.Display
        (wrapInt64 (config.VNCPort - 5900)) ip mask
        (getImagePath h.home (fillImageURL config).ImageURL)) ∧
    (rh.portFree 2222 = true →
      Event.spawn qemuBin
        (specLaunchArgs config.RAM config.CPU config.Display
          (wrapInt64 (config.VNCPort - 5900)) ip mask
          (getImagePath h.home (fillImageURL config).ImageURL))
        rh.startErr.isNone ∈ t1) ∧
    (-9223372036854769908 ≤ config.VNCPort → config.VNCPort ≤ 9223372036854775807 →
      wrapInt64 (config.VNCPort - 5900) = config.VNCPort - 5900) := by
  obtain ⟨config0, ip0, mask0, display, hsel, hl, hd, hcfg, hip, hargs⟩ :=
    NewQemuVM_ok h _ vm t hnew
  have hne : config.Display ≠ "" := by
    rcases hmode with hm | hm | hm | hm <;> rw [hm] <;> decide
  have hc0 : config0 = config := by
    unfold selectConfig at hsel
    have h1 : ¬ config.RAM < 1 := by omega
    have h2 : ¬ config.CPU < 1 := by omega
    have h3 : ¬ config.DiskSize < 1 := by omega
    simp only [h1, h2, h3, hne, if_false, Except.ok.injEq] at hsel
    exact hsel.symm
  subst hc0
  rw [hlease] at hl
  simp only [Except.ok.injEq, Prod.mk.injEq] at hl
  obtain ⟨hip0, hmask0⟩ := hl
  subst hip0
  subst hmask0
  obtain ⟨f1, f2, f3, f4⟩ := fillImageURL_fields config0
  have hvec : startArgs vm (fillImageURL config0) =
      specLaunchArgs config0.RAM config0.CPU config0.Display
        (wrapInt64 (config0.VNCPort - 5900)) ip mask
        (getImagePath h.home (fillImageURL config0).ImageURL) := by
    unfold displayArgs at hd
    rw [f3, f4] at hd
    unfold startArgs specLaunchArgs
    rw [hargs, f3]
    unfold baseArgs
    rw [f1, f2]
    rcases hmode with hm | hm | hm | hm
    · rw [hm] at hd ⊢
      simp at hd
      simp [← hd]
    · rw [hm] at hd ⊢
      simp at hd
      simp [← hd]
    · rw [hm] at hd ⊢
      simp at hd
      simp [← hd]
    · have hp := hport hm
      rw [hm] at hd ⊢
      simp [hp] at hd
      simp [← hd]
  refine ⟨?_, ?_, ?_⟩
  · intro bin args started hmem
    rcases Start_trace rh fuel vm _ hcfg r vm1 t1 hstart with
      ⟨_, ht, _⟩ | ⟨_, tail, ht, htail⟩
    · rw [ht] at hmem
      simp at hmem
    · rw [ht] at hmem
      simp only [List.mem_cons] at hmem
      rcases hmem with hm | hm | hm
      · simp at hm
      · simp only [Event.spawn.injEq] at hm
        exact ⟨hm.1, by rw [hm.2.1, hvec]⟩
      · rcases htail _ hm with h1 | h1 | h1 <;> simp at h1
  · intro hfree
    rcases Start_trace rh fuel vm _ hcfg r vm1 t1 hstart with ⟨hb, _, _⟩ | ⟨_, tail, ht, _⟩
    · rw [hfree] at hb
      simp at hb
    · rw [ht, hvec]
      simp
  · intro hlo hhi
    exact wrapInt64_of_range _ (by omega) (by omega)

/-- Claim C4 at work: the remote-framebuffer configuration on port 5901, built
on `freshHost` and started on a host whose session dial is refused, launches
with display index 1 and without `-daemonize`. -/
theorem C4_start_argument_vector_witness :
    NewQemuVM freshHost [some vncConfig] =
      (.ok vncVM,
        [.lookPath qemuBin, .run qemuBin ["--version"], .stat sampleImage,
         .downloadImage defaultImageURL sampleImage, .assignVMIP, .createQemuDirs]) ∧
    Start sessionRefusedHost 1 vncVM =
      some (.error "error conectando SSH: connection refused", vncVM,
        [.listen 2222, .spawn qemuBin vncVM.defaultArgs true, .dial "192.168.1.100:2222",
         .sshDial "192.168.1.100:22"]) ∧
    Event.spawn qemuBin
      ["-m", "2G", "-smp", "1", "-hda", sampleImage,
       "-netdev", "user,id=net0,net=192.168.1.0/24,dhcpstart=192.168.1.100,hostfwd=tcp::2222-:22",
       "-device", "e1000,netdev=net0", "-vnc", ":1", "-display", "none"] true
      ∈ [Event.listen 2222, .spawn qemuBin vncVM.defaultArgs true, .dial "192.168.1.100:2222",
         .sshDial "192.168.1.100:22"] :=
  ⟨rfl, rfl,
    (C4_start_argument_vector freshHost sessionRefusedHost 1 vncConfig [] vncVM vncVM _ _
      "192.168.1.100" "192.168.1.0/24" _ (by decide) (by decide) (by decide)
      (Or.inr (Or.inr (Or.inr rfl))) (fun _ => by decide) rfl rfl rfl).2.1 rfl⟩

/-! ### Failures of `Start` after the hypervisor was started -/

/-- The readiness loop has one error only, the timeout. -/
theorem waitLoop_error (h : RunHost) (addr : String) (limit : Int) (fuel i : Nat)
    (e : String) (t : List Event)
    (hw : waitLoop h addr limit fuel i = some (.error e, t)) :
    e = "timeout esperando SSH" := by
  induction fuel generalizing i t with
  | zero => simp [waitLoop] at hw
  | succ n ih =>
    unfold waitLoop at hw
    split at hw
    · simp at hw
    · split at hw
      · simp only [Option.some.injEq, Prod.mk.injEq, Except.error.injEq] at hw
        exact hw.1.symm
      · split at hw
        · simp at hw
        · rename_i r1 t1 hrec
          simp only [Option.some.injEq, Prod.mk.injEq] at hw
          rw [hw.1] at hrec
          exact ih (i + 1) t1 hrec

/-- No run of `Start` contains an attempt to stop a process. -/
theorem Start_never_stops (rh : RunHost) (fuel : Nat) (vm : QemuVM)
    (r : Except String Unit) (vm1 : QemuVM) (t : List Event)
    (hs : Start rh fuel vm = some (r, vm1, t)) : t.any stopsProcess = false := by
  cases hc : vm.config with
  | none =>
    unfold Start at hs
    simp only [hc, Option.some.injEq, Prod.mk.injEq] at hs
    rw [← hs.2.2]
    rfl
  | some config =>
    rcases Start_trace rh fuel vm config hc r vm1 t hs with
      ⟨_, ht, _⟩ | ⟨_, tail, ht, htail⟩
    · rw [ht]
      rfl
    · rw [ht]
      simp only [List.any_cons, stopsProcess, Bool.false_or, List.any_eq_false]
      intro ev hev
      rcases htail ev hev with h1 | h1 | h1 <;> simp [h1, stopsProcess]

/-- Claim C5 refuted at two runs: after the hypervisor has been started, a
refused session dial, and likewise a readiness wait that times out after 31
attempts, make `Start` return the error with the session dial, respectively
the last readiness dial, as its last action: no stop of the started process is
attempted. -/
theorem C5_failed_start_leaves_process :
    Start sessionRefusedHost 1 vncVM =
      some (.error "error conectando SSH: connection refused", vncVM,
        [.listen 2222, .spawn qemuBin vncVM.defaultArgs true, .dial "192.168.1.100:2222",
         .sshDial "192.168.1.100:22"]) ∧
    Start neverReadyHost 31 vncVM =
      some (.error "error esperando SSH: timeout esperando SSH", vncVM,
        [.listen 2222, .spawn qemuBin vncVM.defaultArgs true] ++ dialsAndSleeps 30) ∧
    ([Event.listen 2222, .spawn qemuBin vncVM.defaultArgs true, .dial "192.168.1.100:2222",
      .sshDial "192.168.1.100:22"].any stopsProcess = false) ∧
    (([Event.listen 2222, .spawn qemuBin vncVM.defaultArgs true]
      ++ dialsAndSleeps 30).any stopsProcess = false) := by
  refine ⟨rfl, rfl, rfl, rfl⟩

/-- When a run of `Start` has started the hypervisor and returns an error, the
error is that of the readiness wait or of the session step, the instance is
unchanged, and the run contains no attempt to stop the process it started. -/
theorem Start_error_after_spawn (rh : RunHost) (fuel : Nat) (vm vm1 : QemuVM)
    (e : String) (t : List Event)
    (hs : Start rh fuel vm = some (.error e, vm1, t))
    (hsp : t.any startsProcess = true) :
    t.any stopsProcess = false ∧ vm1 = vm ∧
      (e = "error esperando SSH: timeout esperando SSH" ∨
        ∃ e1, e = "error conectando SSH: " ++ e1) := by
  refine ⟨Start_never_stops rh fuel vm _ vm1 t hs, ?_⟩
  unfold Start at hs
  split at hs
  · simp only [Option.some.injEq, Prod.mk.injEq] at hs
    rw [← hs.2.2] at hsp
    simp at hsp
  · split at hs
    · rename_i t0 hp
      simp only [isPortAvailable, Prod.mk.injEq] at hp
      simp only [Option.some.injEq, Prod.mk.injEq] at hs
      rw [← hs.2.2, ← hp.2] at hsp
      simp [startsProcess] at hsp
    · rename_i t0 hp
      simp only [isPortAvailable, Prod.mk.injEq] at hp
      split at hs
      · simp only [Option.some.injEq, Prod.mk.injEq] at hs
        rw [← hs.2.2, ← hp.2] at hsp
        simp [startsProcess] at hsp
      · split at hs
        · simp at hs
        · rename_i e1 t1 hw
          simp only [Option.some.injEq, Prod.mk.injEq, Except.error.injEq] at hs
          have he1 := waitLoop_error _ _ _ _ _ _ _ hw
          refine ⟨hs.2.1.symm, Or.inl ?_⟩
          rw [← hs.1, he1]
          rfl
        · split at hs
          · rename_i e2 vm2 t2 hconn
            simp only [Option.some.injEq, Prod.mk.injEq, Except.error.injEq] at hs
            have hvm : vm2 = vm := by
              unfold connectSSH at hconn
              split at hconn
              · simp only [Prod.mk.injEq] at hconn
                exact hconn.2.1.symm
              · split at hconn
                · simp only [Prod.mk.injEq] at hconn
                  exact hconn.2.1.symm
                · simp at hconn
            exact ⟨by rw [← hs.2.1, hvm], Or.inr ⟨e2, hs.1.symm⟩⟩
          · simp at hs

/-- A failed session step leaves the instance as it was. -/
theorem connectSSH_error_vm (rh : RunHost) (vm vm1 : QemuVM) (e : String) (t : List Event)
    (hconn : connectSSH rh vm = (.error e, vm1, t)) : vm1 = vm := by
  unfold connectSSH at hconn
  split at hconn
  · simp only [Prod.mk.injEq] at hconn
    exact hconn.2.1.symm
  · split at hconn
    · simp only [Prod.mk.injEq] at hconn
      exact hconn.2.1.symm
    · simp at hconn

/-- Claim C5 as amended: on a configured instance, with port 2222 free and
the hypervisor started, (1) a readiness wait that fails, which it does only
by timing out, makes `Start` return that error wrapped, with the instance
unchanged and the wait as its last actions; (2) a readiness wait that
succeeds followed by a session step that fails makes `Start` return the error
of the session step wrapped, with the instance unchanged and the session step
as its last actions; (3) no run of `Start` contains an attempt to stop a
process; and (4) these are the only errors of `Start` after the start of the
hypervisor. -/
theorem C5_failed_start_returns_at_once (rh : RunHost) (fuel : Nat) (vm : QemuVM)
    (config : QemuConfig) (hc : vm.config = some config) (hfree : rh.portFree 2222 = true)
    (hstarted : rh.startErr = none) :
    (∀ e t1, waitForSSH rh vm.ip 2222 30 fuel = some (.error e, t1) →
      e = "timeout esperando SSH" ∧
      Start rh fuel vm =
        some (.error ("error esperando SSH: " ++ e), vm,
          [.listen 2222, .spawn qemuBin (startArgs vm config) true] ++ t1)) ∧
    (∀ t1 e vm1 t2, waitForSSH rh vm.ip 2222 30 fuel = some (.ok (), t1) →
      connectSSH rh vm = (.error e, vm1, t2) →
      Start rh fuel vm =
        some (.error ("error conectando SSH: " ++ e), vm,
          [.listen 2222, .spawn qemuBin (startArgs vm config) true] ++ t1 ++ t2)) ∧
    (∀ r vm1 t, Start rh fuel vm = some (r, vm1, t) → t.any stopsProcess = false) ∧
    (∀ e vm1 t, Start rh fuel vm = some (.error e, vm1, t) →
      vm1 = vm ∧
      ((∃ t1, waitForSSH rh vm.ip 2222 30 fuel = some (.error "timeout esperando SSH", t1) ∧
          e = "error esperando SSH: timeout esperando SSH") ∨
        (∃ t1 e1 vm2 t2, waitForSSH rh vm.ip 2222 30 fuel = some (.ok (), t1) ∧
          connectSSH rh vm = (.error e1, vm2, t2) ∧ e = "error conectando SSH: " ++ e1))) := by
  refine ⟨?_, ?_, ?_, ?_⟩
  · intro e t1 hw
    have he : e = "timeout esperando SSH" := waitLoop_error _ _ _ _ _ _ _ hw
    refine ⟨he, ?_⟩
    unfold Start
    simp [hc, isPortAvailable, hfree, hstarted, hw]
  · intro t1 e vm1 t2 hw hconn
    have hvm := connectSSH_error_vm rh vm vm1 e t2 hconn
    unfold Start
    simp [hc, isPortAvailable, hfree, hstarted, hw, hconn, hvm]
  · intro r vm1 t hs
    exact Start_never_stops rh fuel vm r vm1 t hs
  · intro e vm1 t hs
    unfold Start at hs
    simp only [hc, isPortAvailable, hfree, hstarted] at hs
    split at hs
    · simp at hs
    · rename_i e1 t1 hw
      simp only [Option.some.injEq, Prod.mk.injEq, Except.error.injEq] at hs
      have he1 : e1 = "timeout esperando SSH" := waitLoop_error _ _ _ _ _ _ _ hw
      subst he1
      exact ⟨hs.2.1.symm, Or.inl ⟨t1, hw, hs.1.symm⟩⟩
    · rename_i t1 hw
      split at hs
      · rename_i e2 vm2 t2 hconn
        simp only [Option.some.injEq, Prod.mk.injEq, Except.error.injEq] at hs
        have hvm := connectSSH_error_vm rh vm vm2 e2 t2 hconn
        exact ⟨by rw [← hs.2.1, hvm], Or.inr ⟨t1, e2, vm2, t2, hw, hconn, hs.1.symm⟩⟩
      · simp at hs

/-- Claim C5 as amended, at work: on the host where no readiness dial ever
connects the wait times out after 31 attempts and `Start` returns the wrapped
timeout; on the host whose session dial is refused `Start` returns the wrapped
refusal; in both runs the hypervisor was started and nothing stops it. -/
theorem C5_failed_start_returns_at_once_witness :
    ("timeout esperando SSH" = "timeout esperando SSH" ∧
      Start neverReadyHost 31 vncVM =
        some (.error "error esperando SSH: timeout esperando SSH", vncVM,
          [.listen 2222, .spawn qemuBin vncVM.defaultArgs true] ++ dialsAndSleeps 30)) ∧
    Start sessionRefusedHost 1 vncVM =
      some (.error "error conectando SSH: connection refused", vncVM,
        [.listen 2222, .spawn qemuBin vncVM.defaultArgs true, .dial "192.168.1.100:2222",
         .sshDial "192.168.1.100:22"]) ∧
    ([Event.listen 2222, .spawn qemuBin vncVM.defaultArgs true, .dial "192.168.1.100:2222",
      .sshDial "192.168.1.100:22"].any stopsProcess = false) :=
  ⟨(C5_failed_start_returns_at_once neverReadyHost 31 vncVM _ rfl rfl rfl).1
      "timeout esperando SSH" (dialsAndSleeps 30) rfl,
    (C5_failed_start_returns_at_once sessionRefusedHost 1 vncVM _ rfl rfl rfl).2.1
      [.dial "192.168.1.100:2222"] "connection refused" vncVM [.sshDial "192.168.1.100:22"]
      rfl rfl,
    (C5_failed_start_returns_at_once sessionRefusedHost 1 vncVM _ rfl rfl rfl).2.2.1
      _ _ _ rfl⟩

/-! ### The management port -/

/-- The instance of the sample runs is the one `NewQemuVM()` builds. -/
theorem NewQemuVM_default :
    NewQemuVM freshHost [] =
      (.ok defaultVM,
        [.lookPath qemuBin, .run qemuBin ["--version"], .stat sampleImage,
         .downloadImage defaultImageURL sampleImage, .assignVMIP, .createQemuDirs]) := by
  rfl

/-- On a configured instance `Start` fails on a bound port 2222 with the
port-in-use error, having done nothing but the probe. -/
theorem Start_busy_port (rh : RunHost) (fuel : Nat) (vm : QemuVM) (config : QemuConfig)
    (hc : vm.config = some config) (hbusy : rh.portFree 2222 = false) :
    Start rh fuel vm = some (.error "el puerto 2222 ya está en uso", vm, [.listen 2222]) := by
  unfold Start
  simp [hc, isPortAvailable, hbusy]

/-- Whatever the host says about port 2222, `OpenWindow` does not probe it:
with a working pipe it goes straight to starting the hypervisor. -/
theorem OpenWindow_no_probe (rh : RunHost) (vm : QemuVM) :
    (OpenWindow rh vm).2.2.any (probesPort 2222) = false := by
  unfold OpenWindow
  split
  · rfl
  · split <;> rfl

/-- Claim C6, at the failing inputs: with port 2222 bound, `OpenWindow` starts
the hypervisor without any probe of the port; and `StartWithGUI` starts the
hypervisor twice with the same arguments, the second time, through
`OpenWindow`, without a probe, while the first process holds the forwarded
port. -/
theorem C6_OpenWindow_skips_port_check :
    busyHost.portFree 2222 = false ∧
    OpenWindow busyHost defaultVM =
      (.ok (), windowVM, [.spawn qemuBin defaultLaunchArgs true]) ∧
    StartWithGUI readyHost 1 defaultVM =
      some (.ok (), { windowVM with sshClient := some "192.168.1.100:22" },
        [.listen 2222, .spawn qemuBin defaultLaunchArgs true, .dial "192.168.1.100:2222",
         .sshDial "192.168.1.100:22", .spawn qemuBin defaultLaunchArgs true]) := by
  refine ⟨rfl, rfl, rfl⟩

/-! ### Stopping twice -/

/-- After a successful `Stop`, another `Stop` never returns success. -/
theorem Stop_twice_not_ok (h1 h2 : RunHost) (vm vm1 : QemuVM) (t : List Event)
    (hs : Stop h1 vm = (.ok, vm1, t)) : (Stop h2 vm1).1 ≠ .ok := by
  have hch : vm1.commandChan = .isClosed := by
    unfold Stop at hs
    cases hsc : vm.sshClient <;> cases hce : h1.sshCloseErr <;> cases hpk : h1.pkillErr <;>
      cases hcc : vm.commandChan <;> cases hctx : vm.ctx <;>
      simp [hsc, hce, hpk, hcc, hctx] at hs <;>
      rw [← hs.1]
  unfold Stop
  cases hsc : vm1.sshClient <;> cases hce : h2.sshCloseErr <;> cases hpk : h2.pkillErr <;>
    simp [hsc, hce, hpk, hch]

/-- Claim C7, at the failing input: the instance of the window test
(`NewQemuVM()`, `OpenWindow`, `Stop`) is stopped successfully, and a second
`Stop`, whose process kill succeeds, closes the closed command channel: the
call ends in a run-time panic, not in an error value. -/
theorem C7_second_Stop_panics :
    Stop readyHost windowVM =
      (.ok, stoppedVM, [.run "pkill" [qemuBin], .closeChan, .cancel]) ∧
    Stop readyHost stoppedVM =
      (.panic "close of closed channel", stoppedVM, [.run "pkill" [qemuBin], .closeChan]) := by
  exact ⟨rfl, rfl⟩

/-! ### Readiness port and session port -/

/-- Claim C8, at the failing input: in a successful `Start` the readiness wait
dials port 2222 at the address of the instance, and the session is then
dialled, and held, at port 22 of that address. -/
theorem C8_session_port_differs :
    Start readyHost 1 defaultVM =
      some (.ok (), { defaultVM with sshClient := some "192.168.1.100:22" },
        [.listen 2222, .spawn qemuBin defaultLaunchArgs true, .dial "192.168.1.100:2222",
         .sshDial "192.168.1.100:22"]) ∧
    (connectSSH readyHost defaultVM).2.2 = [.sshDial "192.168.1.100:22"] ∧
    waitForSSH readyHost defaultVM.ip 2222 30 1
      = some (.ok (), [.dial "192.168.1.100:2222"]) := by
  exact ⟨rfl, rfl, rfl⟩

/-! ### The readiness wait -/

/-- With a clock that advances by at least the sleep between two readings,
the reading number `n` is at least `n` seconds after the first one. -/
theorem since_grows (h : RunHost) (hclock : ∀ i, h.since i + second ≤ h.since (i + 1))
    (n : Nat) : h.since 0 + n * second ≤ h.since n := by
  induction n with
  | zero => simp
  | succ m ih =>
    have := hclock m
    push_cast
    linarith

/-- The loop started at attempt `i` with more than `k` units of fuel, when the
attempts `i, ..., i+k-1` neither connect nor pass the limit and attempt `i+k`
does one of the two: it returns at attempt `i+k`, after `k` sleeps. -/
theorem waitLoop_run (h : RunHost) (addr : String) (limit : Int) (k : Nat) :
    ∀ (i fuel : Nat), k < fuel →
      (∀ j, j < k → h.dialOk addr (i + j) = false ∧ h.since (i + j) ≤ limit) →
      (h.dialOk addr (i + k) = true ∨ limit < h.since (i + k)) →
      waitLoop h addr limit fuel i =
        some (if h.dialOk addr (i + k) = true then .ok () else .error "timeout esperando SSH",
          attempts addr k) := by
  induction k with
  | zero =>
    intro i fuel hf _ hk
    obtain ⟨f, rfl⟩ : ∃ f, fuel = f + 1 := ⟨fuel - 1, by omega⟩
    unfold waitLoop
    simp only [Nat.add_zero] at hk ⊢
    by_cases hd : h.dialOk addr i = true
    · simp [hd, attempts]
    · have hlt : limit < h.since i := by
        rcases hk with hk | hk
        · exact absurd hk hd
        · exact hk
      simp [hd, hlt, attempts]
  | succ m ih =>
    intro i fuel hf hbefore hk
    obtain ⟨f, rfl⟩ : ∃ f, fuel = f + 1 := ⟨fuel - 1, by omega⟩
    have h0 := hbefore 0 (by omega)
    simp only [Nat.add_zero] at h0
    have hrec := ih (i + 1) f (by omega)
      (fun j hj => by
        have := hbefore (j + 1) (by omega)
        rwa [show i + 1 + j = i + (j + 1) by omega])
      (by rwa [show i + 1 + m = i + (m + 1) by omega])
    unfold waitLoop
    have hnot : ¬ limit < h.since i := by omega
    rw [show i + 1 + m = i + (m + 1) by omega] at hrec
    simp [h0.1, hnot, hrec, attempts]

/-- Durations of up to 9223372036 seconds are not changed by the 64-bit product. -/
theorem timeoutNs_of_range (timeout : Int) (hlo : -9223372036 ≤ timeout)
    (hhi : timeout ≤ 9223372036) : timeoutNs timeout = timeout * second := by
  unfold timeoutNs second
  exact wrapInt64_of_range _ (by omega) (by omega)

/-- The clock of `neverReadyHost` advances by one second per reading. -/
theorem neverReadyHost_clock :
    ∀ i, neverReadyHost.since i + second ≤ neverReadyHost.since (i + 1) := by
  intro i
  show (i : Int) * second + 1000000 + second ≤ ((i + 1 : Nat) : Int) * second + 1000000
  push_cast
  linarith

/-- Claim C9: for every host, port and timeout, when each clock reading is at
least one second after the reading before it, there is an attempt number `k`
such that no earlier attempt connects or reads a time above the limit
`time.Duration(timeout)*time.Second`, attempt `k` connects or is the first to
read a time above the limit, and with any fuel above `k` the wait returns at
attempt `k`: success if that attempt connects, the timeout error otherwise,
after exactly `k` sleeps.  When the first reading is not negative, `k` is at
most one more than the whole seconds of the limit; and the limit is `timeout`
seconds for every timeout of up to 9223372036 seconds. -/
theorem C9_waitForSSH_returns (h : RunHost) (host : String) (port timeout : Int)
    (hclock : ∀ i, h.since i + second ≤ h.since (i + 1)) :
    (∃ k : Nat,
      (∀ j, j < k → h.dialOk (host ++ ":" ++ sprintD port) j = false ∧
        h.since j ≤ timeoutNs timeout) ∧
      (h.dialOk (host ++ ":" ++ sprintD port) k = true ∨ timeoutNs timeout < h.since k) ∧
      (∀ fuel, k < fuel →
        waitForSSH h host port timeout fuel =
          some (if h.dialOk (host ++ ":" ++ sprintD port) k = true then .ok ()
                else .error "timeout esperando SSH",
            attempts (host ++ ":" ++ sprintD port) k)) ∧
      (0 ≤ h.since 0 → (k : Int) ≤ max 0 (timeoutNs timeout / second) + 1)) ∧
    (-9223372036 ≤ timeout → timeout ≤ 9223372036 →
      timeoutNs timeout = timeout * second) := by
  refine ⟨?_, timeoutNs_of_range timeout⟩
  have hex : ∃ n : Nat, h.dialOk (host ++ ":" ++ sprintD port) n = true ∨
      timeoutNs timeout < h.since n := by
    refine ⟨(timeoutNs timeout - h.since 0).toNat + 1, Or.inr ?_⟩
    have hg := since_grows h hclock ((timeoutNs timeout - h.since 0).toNat + 1)
    have hn := Int.self_le_toNat (timeoutNs timeout - h.since 0)
    have hs : (1 : Int) ≤ second := by decide
    push_cast at hg
    have hnn : (0 : Int) ≤ ((timeoutNs timeout - h.since 0).toNat : Int) := Int.ofNat_nonneg _
    nlinarith
  classical
  refine ⟨Nat.find hex, ?_, Nat.find_spec hex, ?_, ?_⟩
  · intro j hj
    have hmin := Nat.find_min hex hj
    simp only [not_or, Bool.not_eq_true, not_lt] at hmin
    exact hmin
  · intro fuel hf
    have hrun := waitLoop_run h (host ++ ":" ++ sprintD port) (timeoutNs timeout)
      (Nat.find hex) 0 fuel hf
      (fun j hj => by
        have hmin := Nat.find_min hex hj
        simp only [not_or, Bool.not_eq_true, not_lt] at hmin
        simpa using hmin)
      (by simpa using Nat.find_spec hex)
    simpa [waitForSSH] using hrun
  · intro h0
    rcases Nat.eq_zero_or_pos (Nat.find hex) with hz | hpos
    · rw [hz]
      have : (0 : Int) ≤ max 0 (timeoutNs timeout / second) := le_max_left _ _
      simp only [Nat.cast_zero]
      omega
    · have hmin := Nat.find_min hex (Nat.sub_lt hpos Nat.one_pos)
      simp only [not_or, Bool.not_eq_true, not_lt] at hmin
      have hg := since_grows h hclock (Nat.find hex - 1)
      have hle : ((Nat.find hex - 1 : Nat) : Int) * second ≤ timeoutNs timeout := by linarith
      have hdiv : ((Nat.find hex - 1 : Nat) : Int) ≤ timeoutNs timeout / second :=
        (Int.le_ediv_iff_mul_le (by decide)).2 hle
      have hmax : timeoutNs timeout / second ≤ max 0 (timeoutNs timeout / second) :=
        le_max_right _ _
      have hcast : ((Nat.find hex - 1 : Nat) : Int) = (Nat.find hex : Int) - 1 := by
        omega
      omega

/-- Claim C9 at work: against a port that never opens, with the timeout of 30
seconds that `Start` uses and a clock that reads one millisecond more than the
seconds slept, the wait has a final attempt and returns there. -/
theorem C9_waitForSSH_returns_witness :
    (∀ i, neverReadyHost.since i + second ≤ neverReadyHost.since (i + 1)) ∧
    ((∃ k : Nat,
      (∀ j, j < k → neverReadyHost.dialOk ("192.168.1.100" ++ ":" ++ sprintD 2222) j = false ∧
        neverReadyHost.since j ≤ timeoutNs 30) ∧
      (neverReadyHost.dialOk ("192.168.1.100" ++ ":" ++ sprintD 2222) k = true ∨
        timeoutNs 30 < neverReadyHost.since k) ∧
      (∀ fuel, k < fuel →
        waitForSSH neverReadyHost "192.168.1.100" 2222 30 fuel =
          some (if neverReadyHost.dialOk ("192.168.1.100" ++ ":" ++ sprintD 2222) k = true
                then .ok () else .error "timeout esperando SSH",
            attempts ("192.168.1.100" ++ ":" ++ sprintD 2222) k)) ∧
      (0 ≤ neverReadyHost.since 0 → (k : Int) ≤ max 0 (timeoutNs 30 / second) + 1)) ∧
    (-9223372036 ≤ (30 : Int) → (30 : Int) ≤ 9223372036 → timeoutNs 30 = 30 * second)) :=
  ⟨neverReadyHost_clock,
    C9_waitForSSH_returns neverReadyHost "192.168.1.100" 2222 30 neverReadyHost_clock⟩

/-! ### Listing snapshots -/

/-- A scan that succeeds has no `time.Time` operand. -/
theorem doScanf_ok_no_time (items : List FmtItem) :
    ∀ (input : List Char) (ops : List Operand) (words : List String),
      doScanf items input ops = .ok words → Operand.time ∉ ops := by
  induction items with
  | nil =>
    intro input ops words hs
    unfold doScanf at hs
    split at hs
    · rename_i hops
      rw [hops]
      simp
    · simp at hs
  | cons item rest ih =>
    intro input ops words hs
    cases item with
    | lit c =>
      unfold doScanf at hs
      split at hs
      · simp at hs
      · split at hs
        · exact ih _ _ _ hs
        · simp at hs
    | danglingPercent => simp [doScanf] at hs
    | spaces n t =>
      unfold doScanf at hs
      split at hs
      · simp at hs
      · split at hs
        · split at hs
          · simp at hs
          · exact ih _ _ _ hs
        · exact ih _ _ _ hs
    | verb c =>
      unfold doScanf at hs
      split at hs
      · simp at hs
      · split at hs
        · simp at hs
        · rename_i op ops1
          split at hs
          · simp at hs
          · rename_i word input2 hone
            split at hs
            · simp at hs
            · rename_i words1 hrest
              have hop : op ≠ .time := by
                intro hop
                rw [hop] at hone
                simp [scanOne] at hone
              have := ih _ _ _ hrest
              intro hmem
              rcases List.mem_cons.1 hmem with h1 | h1
              · exact hop h1.symm
              · exact this h1

/-- No content of a metadata file passes the scan of `ListSnapshots`. -/
theorem scanMeta_error (content : String) : ∃ e, scanMeta content = .error e := by
  unfold scanMeta
  cases hs : doScanf (parseFormat metaFormat) content.data [.string, .string, .time] with
  | error e => exact ⟨e, rfl⟩
  | ok words =>
    exact absurd (by simp) (doScanf_ok_no_time _ _ _ _ hs)

/-- The loop over the entries fails as soon as one entry is a metadata file. -/
theorem readMetas_error (h : SnapHost) (snapDir : String) (files : List String)
    (hmeta : ∃ name ∈ files, filepathExt name = ".meta") :
    ∃ e, (readMetas h snapDir files).1 = .error e := by
  induction files with
  | nil => simp at hmeta
  | cons name rest ih =>
    unfold readMetas
    by_cases hext : filepathExt name = ".meta"
    · simp only [hext, if_true]
      cases hr : h.readFile (filepathJoin [snapDir, name]) with
      | error e => exact ⟨_, rfl⟩
      | ok content =>
        obtain ⟨e, he⟩ := scanMeta_error content
        simp only [he]
        exact ⟨_, rfl⟩
    · simp only [hext, if_false]
      apply ih
      obtain ⟨n, hn, hne⟩ := hmeta
      rcases List.mem_cons.1 hn with h1 | h1
      · rw [h1] at hne
        exact absurd hne hext
      · exact ⟨n, h1, hne⟩

/-- Whenever the snapshot directory holds at least one `.meta` file, whatever
its content, `ListSnapshots` returns an error. -/
theorem ListSnapshots_error (h : SnapHost) (vm : QemuVM) (files : List String)
    (hdir : h.readDir (filepathJoin [h.home, "qemu", "snapshots"]) = .ok files)
    (hmeta : ∃ name ∈ files, filepathExt name = ".meta") :
    ∃ e, (ListSnapshots h vm).1 = .error e := by
  unfold ListSnapshots
  cases hc : vm.config with
  | none => exact ⟨_, rfl⟩
  | some c =>
    simp only [hdir]
    obtain ⟨e, he⟩ := readMetas_error h (filepathJoin [h.home, "qemu", "snapshots"]) files hmeta
    rcases hrm : readMetas h (filepathJoin [h.home, "qemu", "snapshots"]) files with ⟨r, t⟩
    rw [hrm] at he
    simp only at he
    subst he
    exact ⟨e, rfl⟩

/-- Claim C10, at the failing input: for a directory with the single valid
record that `CreateSnapshot` writes for the description `before`,
`ListSnapshots` returns an error instead of the one snapshot, because the
scan cannot store into the `time.Time` field; a description of two words
already fails at the newline after the first word. -/
theorem C10_ListSnapshots_rejects_valid_record :
    ListSnapshots oneSnapshotHost defaultVM =
      (.error "error parseando metadatos: can't scan type: *time.Time",
        [.readDir "/home/u/qemu/snapshots",
         .readFile "/home/u/qemu/snapshots/20240501100000.meta"]) ∧
    scanMeta (metaRecord "20240501100000" "two words" "2024-05-01T10:00:00Z")
      = .error "newline in format does not match input" := by
  exact ⟨rfl, rfl⟩

/-! ### Paths of the snapshot store -/

/-- The last piece of a split ends with the last character of the text, when
that character is not the separator. -/
theorem splitAux_last (sep c : Char) (hc : c ≠ sep) (q : List Char) :
    ∀ cur, ∃ pre w, splitAux sep (q ++ [c]) cur = pre ++ [w ++ [c]] := by
  induction q with
  | nil =>
    intro cur
    refine ⟨[], cur.reverse, ?_⟩
    simp [splitAux, hc]
  | cons a q ih =>
    intro cur
    simp only [List.cons_append, splitAux]
    split
    · obtain ⟨pre, w, h⟩ := ih []
      refine ⟨cur.reverse :: pre, w, ?_⟩
      show cur.reverse :: splitAux sep (q ++ [c]) [] = _
      rw [h]
      rfl
    · exact ih (a :: cur)

/-- Cleaning keeps a last element that is a name. -/
theorem cleanElems_last (rooted : Bool) (e : String) (h1 : e ≠ "") (h2 : e ≠ ".")
    (h3 : e ≠ "..") (es : List String) :
    ∀ stack, ∃ pre, cleanElems rooted (es ++ [e]) stack = pre ++ [e] := by
  induction es with
  | nil =>
    intro stack
    refine ⟨stack.reverse, ?_⟩
    simp [cleanElems, h1, h2, h3]
  | cons a es ih =>
    intro stack
    simp only [List.cons_append, cleanElems]
    split
    · exact ih _
    · split
      · split
        · split
          · exact ih _
          · exact ih _
        · split
          · exact ih _
          · exact ih _
      · exact ih _

/-- The text of joined elements ends with the last element. -/
theorem intercalate_go_last (sep e : String) (pre : List String) :
    ∀ acc, ∃ u, (String.intercalate.go acc sep (pre ++ [e])).data = u ++ e.data := by
  induction pre with
  | nil =>
    intro acc
    exact ⟨acc.data ++ sep.data, by simp [String.intercalate.go]⟩
  | cons a pre ih =>
    intro acc
    simp only [List.cons_append, String.intercalate.go]
    exact ih _

/-- The text of joined elements ends with the last element. -/
theorem intercalate_last (sep e : String) (pre : List String) :
    ∃ u, (String.intercalate sep (pre ++ [e])).data = u ++ e.data := by
  cases pre with
  | nil => exact ⟨[], by simp [String.intercalate, String.intercalate.go]⟩
  | cons a pre =>
    simp only [List.cons_append, String.intercalate]
    exact intercalate_go_last sep e pre a

/-- A cleaned path ends with the last character of the path, when that
character is neither a slash nor a dot. -/
theorem filepathClean_last (p : String) (q : List Char) (c : Char) (hp : p.data = q ++ [c])
    (hs : c ≠ '/') (hd : c ≠ '.') : ∃ u, (filepathClean p).data = u ++ [c] := by
  obtain ⟨pre, w, hsplit⟩ := splitAux_last '/' c hs q []
  have hne : ∀ s : String, s.data = [] ∨ s.data = ['.'] ∨ s.data = ['.', '.'] →
      String.mk (w ++ [c]) ≠ s := by
    intro s hsd heq
    have hdat : w ++ [c] = s.data := by rw [← heq]
    rcases hsd with h | h | h
    · rw [h] at hdat
      simp at hdat
    · rw [h] at hdat
      have := congrArg List.getLast? hdat
      simp at this
      exact hd this
    · rw [h] at hdat
      have := congrArg List.getLast? hdat
      simp at this
      exact hd this
  obtain ⟨pre2, hclean⟩ := cleanElems_last (p.data.head? = some '/') (String.mk (w ++ [c]))
    (hne "" (Or.inl rfl)) (hne "." (Or.inr (Or.inl rfl))) (hne ".." (Or.inr (Or.inr rfl)))
    (pre.map String.mk) []
  obtain ⟨u, hu⟩ := intercalate_last "/" (String.mk (w ++ [c])) pre2
  have hbody : (String.intercalate "/"
      (cleanElems (p.data.head? = some '/') (stringsSplit p '/') [])).data = (u ++ w) ++ [c] := by
    have hsp : splitAux '/' p.data [] = pre ++ [w ++ [c]] := by
      rw [hp]
      exact hsplit
    unfold stringsSplit
    rw [hsp, List.map_append, List.map_singleton, hclean, hu]
    simp
  unfold filepathClean
  simp only
  split
  · exact ⟨"/".data ++ (u ++ w), by rw [String.data_append, hbody]; simp⟩
  · split
    · rename_i hempty
      rw [hempty] at hbody
      simp at hbody
    · exact ⟨u ++ w, hbody⟩

/-- The path of a file in a directory ends with the last character of the
file name, when that character is neither a slash nor a dot. -/
theorem filepathJoin_last (dir name : String) (q : List Char) (c : Char)
    (hn : name.data = q ++ [c]) (hs : c ≠ '/') (hd : c ≠ '.') :
    ∃ u, (filepathJoin [dir, name]).data = u ++ [c] := by
  have hne : name ≠ "" := by
    intro h
    rw [h] at hn
    simp at hn
  unfold filepathJoin
  split
  · unfold filepathJoin
    simp only [hne, if_false]
    exact filepathClean_last _ q c (by simp [String.intercalate, String.intercalate.go, hn]) hs hd
  · exact filepathClean_last _ (dir.data ++ "/".data ++ q) c
      (by simp [String.intercalate, String.intercalate.go, hn]) hs hd

/-- The metadata record and the artifact of a snapshot are different files. -/
theorem meta_ne_artifact (dir id : String) :
    filepathJoin [dir, id ++ ".meta"] ≠ filepathJoin [dir, id ++ ".qcow2"] := by
  obtain ⟨u, hu⟩ := filepathJoin_last dir (id ++ ".meta") (id.data ++ ['.', 'm', 'e', 't']) 'a'
    (by simp) (by decide) (by decide)
  obtain ⟨v, hv⟩ := filepathJoin_last dir (id ++ ".qcow2")
    (id.data ++ ['.', 'q', 'c', 'o', 'w']) '2' (by simp) (by decide) (by decide)
  intro heq
  rw [heq, hv] at hu
  have := congrArg List.getLast? hu
  simp at this

/-! ### Deleting a snapshot -/

/-- A removed file is gone. -/
theorem fileExists_removeFile_self (path : String) (d : Disk) :
    fileExists path (removeFile path d) = false := by
  simp [fileExists, removeFile]

/-- Removing a file leaves the other files in place. -/
theorem fileExists_removeFile_ne (path other : String) (d : Disk) (hne : path ≠ other) :
    fileExists path (removeFile other d) = fileExists path d := by
  unfold fileExists removeFile
  rw [List.any_filter]
  congr 1
  funext f
  by_cases hf : f.1 = path
  · simp [hf, hne]
  · simp [hf]

/-- Claim C11 refuted: when the artifact of the sample snapshot is removed
and the removal of its metadata record then fails, `DeleteSnapshot` returns
the error with the artifact gone and the record still on the disk: one of the
two was removed. -/
theorem C11_delete_not_atomic :
    DeleteSnapshot lockedMetaHost snapshotDisk defaultVM "20240501100000" =
      (.error "error eliminando metadatos: operation not permitted",
        [(sampleMeta, metaRecord "20240501100000" "before" "2024-05-01T10:00:00Z")],
        [.stat sampleMeta, .remove sampleArtifact, .remove sampleMeta]) ∧
    fileExists sampleArtifact snapshotDisk = true ∧
    fileExists sampleArtifact
      [(sampleMeta, metaRecord "20240501100000" "before" "2024-05-01T10:00:00Z")] = false := by
  refine ⟨rfl, rfl, rfl⟩

/-- Claim C11 as amended: on an instance with on-disk snapshots and for an
identifier whose metadata record exists, `DeleteSnapshot` removes the artifact
first and the record second, and ends in exactly one of three ways.  Both
removals succeed: success, and both files are gone.  The artifact removal
fails (no artifact, or the host refuses): an error, and the disk is unchanged,
so the record stays.  The artifact is removed and the removal of the record is
refused: an error, with the artifact gone and the record still in place. -/
theorem C11_delete_in_order (h : StoreHost) (d : Disk) (vm : QemuVM) (config : QemuConfig)
    (id : String) (hc : vm.config = some config) (hdisk : config.SnapshotsInMemory = false)
    (hmeta : fileExists (metaPathOf h.home id) d = true) :
    (fileExists (artifactPathOf h.home id) d = true ∧
      h.removeErr (artifactPathOf h.home id) = none ∧
      h.removeErr (metaPathOf h.home id) = none ∧
      (DeleteSnapshot h d vm id).1 = .ok () ∧
      (DeleteSnapshot h d vm id).2.1
        = removeFile (metaPathOf h.home id) (removeFile (artifactPathOf h.home id) d) ∧
      fileExists (artifactPathOf h.home id) (DeleteSnapshot h d vm id).2.1 = false ∧
      fileExists (metaPathOf h.home id) (DeleteSnapshot h d vm id).2.1 = false) ∨
    ((fileExists (artifactPathOf h.home id) d = false ∨
        h.removeErr (artifactPathOf h.home id) ≠ none) ∧
      (∃ e, (DeleteSnapshot h d vm id).1
        = .error ("error eliminando snapshot en disco: " ++ e)) ∧
      (DeleteSnapshot h d vm id).2.1 = d) ∨
    (fileExists (artifactPathOf h.home id) d = true ∧
      h.removeErr (artifactPathOf h.home id) = none ∧
      (∃ e, h.removeErr (metaPathOf h.home id) = some e ∧
        (DeleteSnapshot h d vm id).1 = .error ("error eliminando metadatos: " ++ e)) ∧
      (DeleteSnapshot h d vm id).2.1 = removeFile (artifactPathOf h.home id) d ∧
      fileExists (artifactPathOf h.home id) (DeleteSnapshot h d vm id).2.1 = false ∧
      fileExists (metaPathOf h.home id) (DeleteSnapshot h d vm id).2.1 = true) := by
  have hne : metaPathOf h.home id ≠ artifactPathOf h.home id := meta_ne_artifact _ id
  have hkeep : fileExists (metaPathOf h.home id) (removeFile (artifactPathOf h.home id) d)
      = true := by
    rw [fileExists_removeFile_ne _ _ _ hne, hmeta]
  unfold metaPathOf artifactPathOf at *
  unfold DeleteSnapshot
  simp only [hc, hdisk, hmeta, Bool.not_true, Bool.false_eq_true, if_false]
  cases hart : fileExists (filepathJoin [filepathJoin [h.home, "qemu", "snapshots"],
      id ++ ".qcow2"]) d with
  | false =>
    refine Or.inr (Or.inl ⟨Or.inl rfl, ?_, ?_⟩) <;> simp [osRemove, hart]
  | true =>
    cases hra : h.removeErr (filepathJoin [filepathJoin [h.home, "qemu", "snapshots"],
        id ++ ".qcow2"]) with
    | some e =>
      refine Or.inr (Or.inl ⟨Or.inr (by simp), ?_, ?_⟩) <;> simp [osRemove, hart, hra]
    | none =>
      cases hrm : h.removeErr (filepathJoin [filepathJoin [h.home, "qemu", "snapshots"],
          id ++ ".meta"]) with
      | some e =>
        refine Or.inr (Or.inr ⟨rfl, rfl, ⟨e, rfl, ?_⟩, ?_, ?_, ?_⟩) <;>
          simp [osRemove, hart, hra, hrm, hkeep, fileExists_removeFile_self]
      | none =>
        refine Or.inl ⟨rfl, rfl, rfl, ?_, ?_, ?_, ?_⟩ <;>
          simp [osRemove, hart, hra, hrm, hkeep, fileExists_removeFile_self,
            fileExists_removeFile_ne _ _ _ hne.symm]

/-- Claim C11 as amended, at work on the sample snapshot whose metadata
record cannot be removed: the run is of the third kind. -/
theorem C11_delete_in_order_witness :
    fileExists sampleMeta snapshotDisk = true ∧
    ((fileExists sampleArtifact snapshotDisk = true ∧
      lockedMetaHost.removeErr sampleArtifact = none ∧
      lockedMetaHost.removeErr sampleMeta = none ∧
      lockedDelete.1 = .ok () ∧
      lockedDelete.2.1 = removeFile sampleMeta (removeFile sampleArtifact snapshotDisk) ∧
      fileExists sampleArtifact lockedDelete.2.1 = false ∧
      fileExists sampleMeta lockedDelete.2.1 = false) ∨
    ((fileExists sampleArtifact snapshotDisk = false ∨
        lockedMetaHost.removeErr sampleArtifact ≠ none) ∧
      (∃ e, lockedDelete.1 = .error ("error eliminando snapshot en disco: " ++ e)) ∧
      lockedDelete.2.1 = snapshotDisk) ∨
    (fileExists sampleArtifact snapshotDisk = true ∧
      lockedMetaHost.removeErr sampleArtifact = none ∧
      (∃ e, lockedMetaHost.removeErr sampleMeta = some e ∧
        lockedDelete.1 = .error ("error eliminando metadatos: " ++ e)) ∧
      lockedDelete.2.1 = removeFile sampleArtifact snapshotDisk ∧
      fileExists sampleArtifact lockedDelete.2.1 = false ∧
      fileExists sampleMeta lockedDelete.2.1 = true)) :=
  ⟨rfl,
    C11_delete_in_order lockedMetaHost snapshotDisk defaultVM _ "20240501100000" rfl rfl rfl⟩

/-! ### Creating a snapshot -/

/-- Claim C12 refuted: on an instance with the in-memory mode,
`CreateSnapshot` writes the metadata record and returns the snapshot with a
nil error; no error says that the mode is not supported. -/
theorem C12_in_memory_create_succeeds :
    CreateSnapshot storeHost [] memoryVM "before" =
      (.ok { ID := "20240501100000", Description := "before", CreatedAt := tenOClock },
        recordDisk "before",
        [.mkdirAll "/home/u/qemu/snapshots", .create sampleMeta, .write sampleMeta]) := by
  rfl

/-- A written file holds what was written. -/
theorem fileContent_writeFile_self (path content : String) (d : Disk) :
    fileContent path (writeFile path content d) = some content := by
  simp [fileContent, writeFile]

/-- Writing a file leaves the content of the other files alone. -/
theorem fileContent_writeFile_ne (path other content : String) (d : Disk)
    (hne : other ≠ path) :
    fileContent other (writeFile path content d) = fileContent other d := by
  have hne2 : ¬ path = other := fun h => hne h.symm
  unfold fileContent writeFile removeFile
  rw [List.find?_cons]
  simp only [hne2, decide_False]
  rw [List.find?_filter]
  congr 2
  funext f
  by_cases hf : f.1 = other
  · simp [hf, hne]
  · simp [hf]

/-- Claim C12 as amended: on an instance with the in-memory mode,
`CreateSnapshot` does exactly this.  When the directory creation, the file
creation and the write succeed, it returns the snapshot (the time-derived
identifier, the description, the creation time) with a nil error, its actions
are the creation of the snapshot directory, the creation of the metadata file
and the write to it, and the disk holds the record (identifier, description
and RFC-3339 creation time) at the path of the metadata file, every other file
being as before.  A failure of one of the three steps is returned wrapped,
after the actions up to that step.  These are its only errors, and no run
contains a backend command. -/
theorem C12_in_memory_create (h : StoreHost) (d : Disk) (vm : QemuVM) (config : QemuConfig)
    (description : String) (hc : vm.config = some config)
    (hmem : config.SnapshotsInMemory = true) :
    (h.mkdirErr = none →
      h.createErr (metaPathOf h.home (generateSnapshotID h.zone h.nowID)) = none →
      h.writeErr = none →
      CreateSnapshot h d vm description =
        (.ok { ID := generateSnapshotID h.zone h.nowID, Description := description,
               CreatedAt := h.nowCreated },
          writeFile (metaPathOf h.home (generateSnapshotID h.zone h.nowID))
            (metaRecord (generateSnapshotID h.zone h.nowID) description
              (formatRFC3339 (h.nowCreated.civil h.zone)))
            (writeFile (metaPathOf h.home (generateSnapshotID h.zone h.nowID)) "" d),
          [.mkdirAll (snapshotDirOf h.home),
           .create (metaPathOf h.home (generateSnapshotID h.zone h.nowID)),
           .write (metaPathOf h.home (generateSnapshotID h.zone h.nowID))]) ∧
      fileContent (metaPathOf h.home (generateSnapshotID h.zone h.nowID))
          (CreateSnapshot h d vm description).2.1 =
        some (metaRecord (generateSnapshotID h.zone h.nowID) description
          (formatRFC3339 (h.nowCreated.civil h.zone))) ∧
      (∀ other, other ≠ metaPathOf h.home (generateSnapshotID h.zone h.nowID) →
        fileContent other (CreateSnapshot h d vm description).2.1 = fileContent other d)) ∧
    (∀ e, h.mkdirErr = some e →
      CreateSnapshot h d vm description =
        (.error ("error creando directorio de snapshots: " ++ e), d,
          [.mkdirAll (snapshotDirOf h.home)])) ∧
    (h.mkdirErr = none →
      ∀ e, h.createErr (metaPathOf h.home (generateSnapshotID h.zone h.nowID)) = some e →
      CreateSnapshot h d vm description =
        (.error ("error creando archivo de metadatos: " ++ e), d,
          [.mkdirAll (snapshotDirOf h.home),
           .create (metaPathOf h.home (generateSnapshotID h.zone h.nowID))])) ∧
    (h.mkdirErr = none →
      h.createErr (metaPathOf h.home (generateSnapshotID h.zone h.nowID)) = none →
      ∀ e, h.writeErr = some e →
      CreateSnapshot h d vm description =
        (.error ("error escribiendo metadatos: " ++ e),
          writeFile (metaPathOf h.home (generateSnapshotID h.zone h.nowID)) "" d,
          [.mkdirAll (snapshotDirOf h.home),
           .create (metaPathOf h.home (generateSnapshotID h.zone h.nowID)),
           .write (metaPathOf h.home (generateSnapshotID h.zone h.nowID))])) ∧
    (∀ e, (CreateSnapshot h d vm description).1 = .error e →
      (∃ e1, e = "error creando directorio de snapshots: " ++ e1) ∨
      (∃ e1, e = "error creando archivo de metadatos: " ++ e1) ∨
      (∃ e1, e = "error escribiendo metadatos: " ++ e1)) ∧
    (∀ ev ∈ (CreateSnapshot h d vm description).2.2,
      ∀ bin args, ev ≠ Event.run bin args) := by
  have hcontent := fileContent_writeFile_self
    (metaPathOf h.home (generateSnapshotID h.zone h.nowID))
    (metaRecord (generateSnapshotID h.zone h.nowID) description
      (formatRFC3339 (h.nowCreated.civil h.zone)))
    (writeFile (metaPathOf h.home (generateSnapshotID h.zone h.nowID)) "" d)
  have hother : ∀ other, other ≠ metaPathOf h.home (generateSnapshotID h.zone h.nowID) →
      fileContent other
        (writeFile (metaPathOf h.home (generateSnapshotID h.zone h.nowID))
          (metaRecord (generateSnapshotID h.zone h.nowID) description
            (formatRFC3339 (h.nowCreated.civil h.zone)))
          (writeFile (metaPathOf h.home (generateSnapshotID h.zone h.nowID)) "" d))
        = fileContent other d := by
    intro other hne
    rw [fileContent_writeFile_ne _ _ _ _ hne, fileContent_writeFile_ne _ _ _ _ hne]
  unfold metaPathOf snapshotDirOf at *
  unfold CreateSnapshot
  simp only [hc, hmem, if_true]
  cases hm : h.mkdirErr with
  | some e1 => simp
  | none =>
    cases hcr : h.createErr (filepathJoin [filepathJoin [h.home, "qemu", "snapshots"],
        generateSnapshotID h.zone h.nowID ++ ".meta"]) with
    | some e1 => simp
    | none =>
      cases hw : h.writeErr with
      | some e1 => simp
      | none =>
        simp only [true_implies, Prod.mk.injEq, true_and, and_self, hcontent]
        refine ⟨hother, ?_⟩
        simp

/-- Claim C12 as amended, at work on the sample host: the call returns the
snapshot, creates the directory and the file, and leaves the record of the
snapshot `before` on the disk. -/
theorem C12_in_memory_create_witness :
    storeHost.mkdirErr = none ∧ storeHost.createErr sampleMeta = none ∧
    storeHost.writeErr = none ∧
    (CreateSnapshot storeHost [] memoryVM "before" =
        (.ok { ID := "20240501100000", Description := "before", CreatedAt := tenOClock },
          recordDisk "before",
          [.mkdirAll "/home/u/qemu/snapshots", .create sampleMeta, .write sampleMeta]) ∧
      fileContent sampleMeta (CreateSnapshot storeHost [] memoryVM "before").2.1 =
        some "ID: 20240501100000\nDescription: before\nCreatedAt: 2024-05-01T10:00:00Z\n" ∧
      (∀ other, other ≠ sampleMeta →
        fileContent other (CreateSnapshot storeHost [] memoryVM "before").2.1
          = fileContent other [])) :=
  ⟨rfl, rfl, rfl, (C12_in_memory_create storeHost [] memoryVM _ "before" rfl rfl).1 rfl rfl rfl⟩

/-! ### Snapshot identifiers -/

/-- Claim C13, at the failing inputs: two calls of `CreateSnapshot` eight
tenths of a second apart, within one second of the clock, get the same
identifier, and the second call replaces the metadata record of the first
(the disk holds the image file `qemu-img` works on throughout);
and across the end of summer time a later instant gets a lexically smaller
identifier. -/
theorem C13_identifier_repeats_within_a_second :
    tenOClock.ns < tenOClockLater.ns ∧
    generateSnapshotID storeHost.zone tenOClock = "20240501100000" ∧
    generateSnapshotID storeHost.zone tenOClockLater = "20240501100000" ∧
    CreateSnapshot storeHost [(sampleArtifact, "qcow2")] defaultVM "before" =
      (.ok { ID := "20240501100000", Description := "before", CreatedAt := tenOClock },
        recordDisk "before" ++ [(sampleArtifact, "qcow2")], createActions) ∧
    CreateSnapshot laterHost (recordDisk "before" ++ [(sampleArtifact, "qcow2")]) defaultVM
        "after" =
      (.ok { ID := "20240501100000", Description := "after", CreatedAt := tenOClockLater },
        recordDisk "after" ++ [(sampleArtifact, "qcow2")], createActions) ∧
    beforeSwitch.ns < atSwitch.ns ∧
    generateSnapshotID summerTimeEnds beforeSwitch = "20241027013000" ∧
    generateSnapshotID summerTimeEnds atSwitch = "20241027010000" ∧
    stringLess (generateSnapshotID summerTimeEnds atSwitch)
      (generateSnapshotID summerTimeEnds beforeSwitch) = true := by
  refine ⟨by decide, rfl, rfl, rfl, rfl, by decide, rfl, rfl, rfl⟩

/-! ### The address of the VM -/

set_option maxRecDepth 100000 in
/-- The text of an octet has no dot. -/
theorem repr_octet_no_dot : ∀ n, n < 256 → '.' ∉ (Nat.repr n).data := by
  decide

set_option maxRecDepth 100000 in
/-- Among the octets only 100 has the text `100`. -/
theorem repr_octet_hundred : ∀ n, n < 256 → Nat.repr n = "100" → n = 100 := by
  decide

/-- A text without the separator is one piece. -/
theorem splitAux_none (sep : Char) (xs : List Char) (hx : sep ∉ xs) :
    ∀ cur, splitAux sep xs cur = [cur.reverse ++ xs] := by
  induction xs with
  | nil => intro cur; simp [splitAux]
  | cons x xs ih =>
    intro cur
    have hne : x ≠ sep := fun h => hx (by simp [h])
    have hxs : sep ∉ xs := fun h => hx (by simp [h])
    simp [splitAux, hne, ih hxs]

/-- The first piece of a split ends at the first separator. -/
theorem splitAux_first (sep : Char) (xs ys : List Char) (hx : sep ∉ xs) :
    ∀ cur, splitAux sep (xs ++ sep :: ys) cur = (cur.reverse ++ xs) :: splitAux sep ys [] := by
  induction xs with
  | nil => intro cur; simp [splitAux]
  | cons x xs ih =>
    intro cur
    have hne : x ≠ sep := fun h => hx (by simp [h])
    have hxs : sep ∉ xs := fun h => hx (by simp [h])
    simp [splitAux, hne, ih hxs]

/-- The dotted text of four octets splits into the texts of the octets. -/
theorem stringsSplit_dotted (a b c d : Nat) (ha : a < 256) (hb : b < 256) (hc : c < 256)
    (hd : d < 256) :
    stringsSplit (dotted a b c d) '.' = [Nat.repr a, Nat.repr b, Nat.repr c, Nat.repr d] := by
  have hdata : (dotted a b c d).data =
      (Nat.repr a).data ++ '.' :: ((Nat.repr b).data ++ '.' :: ((Nat.repr c).data ++ '.' ::
        (Nat.repr d).data)) := by
    simp [dotted, String.data_append]
  unfold stringsSplit
  rw [hdata, splitAux_first _ _ _ (repr_octet_no_dot a ha), splitAux_first _ _ _
    (repr_octet_no_dot b hb), splitAux_first _ _ _ (repr_octet_no_dot c hc),
    splitAux_none _ _ (repr_octet_no_dot d hd)]
  simp

/-- For a host address `a.b.c.d`, a lease that `assignVMIP` returns has the
address `a.b.c.100`; it is the address of the host itself exactly when the
last octet of the host is 100. -/
theorem assignVMIP_address (h : NetHost) (a b c d : Nat) (ha : a < 256) (hb : b < 256)
    (hc : c < 256) (hd : d < 256) (hhost : getHostIP h = .ok (dotted a b c d))
    (vmIP mask : String) (hok : assignVMIP h = .ok (vmIP, mask)) :
    vmIP = dotted a b c 100 ∧ (vmIP = dotted a b c d ↔ d = 100) := by
  have hsplit := stringsSplit_dotted a b c d ha hb hc hd
  have hvm : vmIP = dotted a b c 100 := by
    unfold assignVMIP at hok
    rw [hhost] at hok
    simp only at hok
    split at hok
    · simp at hok
    · split at hok
      · simp at hok
      · split at hok
        · simp at hok
        · split at hok
          · simp at hok
          · simp only [Except.ok.injEq, Prod.mk.injEq] at hok
            rw [← hok.1, hsplit]
            rfl
  refine ⟨hvm, ?_⟩
  rw [hvm]
  constructor
  · intro heq
    have hdata := congrArg String.data heq
    simp only [dotted, String.data_append, List.append_assoc, List.append_cancel_left_eq] at hdata
    exact (repr_octet_hundred d hd (String.ext hdata.symm))
  · intro h100
    rw [h100]

/-- Claim C14, at the failing input: on a host whose address is
`192.168.1.100` in a `/24` network, `assignVMIP` returns that same address for
the VM; on the host `192.168.1.57` it returns `192.168.1.100` as well. -/
theorem C14_vm_address_can_equal_host :
    getHostIP (lanHost 100) = .ok "192.168.1.100" ∧
    assignVMIP (lanHost 100) = .ok ("192.168.1.100", "192.168.1.0/24") ∧
    getHostIP (lanHost 57) = .ok "192.168.1.57" ∧
    assignVMIP (lanHost 57) = .ok ("192.168.1.100", "192.168.1.0/24") := by
  exact ⟨rfl, rfl, rfl, rfl⟩

end GoQemu
